import Mathlib

/-!
# Verification of the SpoonOS agent-server streaming core

A shallow embedding, in Lean 4, of the orchestration layer of the
`spark-ai-demo` server (`apps/server/spoonos_server`):

* the Streaming Event Bridge (`core/agents/react_agent.py`,
  `stream_agent_events` and its helpers),
* the tool-call wrapper (`core/tools/tool_call_wrapper.py`),
* the sub-agent delegation tool (`agents/sub_agents.py`),
* the two protocol adapters (`server/app.py` native framing and
  `api/routes/openai.py` OpenAI-compatible chunking).

Python values that flow through these functions (JSON-serializable dicts,
lists, strings, ints, booleans, None) are embedded as the inductive `PyVal`;
JSON numbers are modeled as integers (no float flows through the verified
claims).  Async generators are linearized: a run of the background task is
modeled by the finite list of items it enqueues, in FIFO order, plus its
final outcome, and a generator is a pure function from that script to the
list of messages it yields.  `uuid.uuid4()` is modeled by a counter: the
n-th drawn uuid is the string `uuid-n`.  Fallible Python code is embedded
with `Except String` (the error carries the exception text); code that
catches every exception is embedded as a total function.
-/

set_option maxHeartbeats 1600000

namespace SpoonServer

/-- A JSON-serializable Python value (`None`, `bool`, `int`, `str`, `list`,
`dict` with string keys, in insertion order).  Numbers are modeled as
integers. -/
inductive PyVal where
  | null
  | bool (b : Bool)
  | int (n : Int)
  | str (s : String)
  | list (items : List PyVal)
  | dict (fields : List (String × PyVal))

/-- Python `d.get(key)` on a dict: the value bound to `key`, if any (keys in a
Python dict are unique, so first match is the binding). -/
def pyGet (fields : List (String × PyVal)) (key : String) : Option PyVal :=
  match fields with
  | [] => none
  | (k, v) :: rest => if k = key then some v else pyGet rest key

/-- Python dict insertion `d[key] = v`: updates the value in place if the key
exists (position preserved), else appends the new binding. -/
def pyDictInsert (fields : List (String × PyVal)) (key : String) (v : PyVal) :
    List (String × PyVal) :=
  match fields with
  | [] => [(key, v)]
  | (k, w) :: rest =>
      if k = key then (k, v) :: rest else (k, w) :: pyDictInsert rest key v

/-- `v is None` in Python. -/
def PyVal.isNull : PyVal → Bool
  | .null => true
  | _ => false

/-- One entry of a `StructuredMessage`'s `parts` list.  `text` parts are the
dicts built by `_build_text_message`; `tool` parts are the dicts built by
`ToolCallWrapper._emit_tool_message` and `SubAgentTool._emit_tool_message`
(`output = none` / `errorText = none` model an absent key). -/
inductive Part where
  | text (text : String) (state : String)
  | tool (toolType : String) (toolCallId : String) (state : String)
      (input : PyVal) (output : Option PyVal) (errorText : Option String)

/-- A `StructuredMessage`: `{id, role, parts}` (`_build_text_message` and both
emitters always set `role = "assistant"`). -/
structure Msg where
  id : String
  role : String
  parts : List Part

/-- `uuid.uuid4()` modeled as a counter: the `n`-th uuid drawn in a run. -/
def uuidStr (n : Nat) : String := "uuid-" ++ toString n

/-! ## Streaming Event Bridge (`core/agents/react_agent.py`) -/

/-- Python truthiness of an optional string (`None` and `""` are falsy). -/
def pyTruthy : Option String → Bool
  | some s => s != ""
  | none => false

/-- Python `a or b` over optional strings: `a` if truthy, else `b` (so the
last operand is returned as-is, even when it is falsy). -/
def pyOr (a b : Option String) : Option String := if pyTruthy a then a else b

/-- One item dequeued from `agent.output_queue` by `stream_agent_events`:
either a dict passing `_looks_like_ai_message` (string `id`, string `role`,
list `parts`), a raw Python string, or a raw payload dict read through
`_serialize_chunk` (only its `delta` / `content` / `text` entries are
consulted; objects exposing a `delta` or `content` attribute normalize to the
same shape). -/
inductive QueueItem where
  | aiMessage (m : Msg)
  | rawStr (s : String)
  | rawDict (delta : Option String) (content : Option String) (text : Option String)

/-- The delta extracted from a non-message queue item:
`payload.get("delta") or payload.get("content") or payload.get("text")`
after `_serialize_chunk` (a raw string `s` serializes to `{"delta": s}`). -/
def chunkDelta : QueueItem → Option String
  | .aiMessage _ => none
  | .rawStr s => pyOr (some s) (pyOr none none)
  | .rawDict d c t => pyOr d (pyOr c t)

/-- `_build_text_message(message_id, text, state)`: a single-text-part
assistant message. -/
def build_text_message (message_id : String) (text : String) (state : String) : Msg :=
  ⟨message_id, "assistant", [.text text state]⟩

/-- The consumer loop of `stream_agent_events`, linearized over the FIFO list
of dequeued items: a message item is yielded unchanged; an item with a
non-`None` delta is appended to the cumulative buffer and re-emitted as a
`streaming` text message carrying the whole buffer; other items are skipped.
Returns the yielded messages and the final buffer. -/
def drainLoop (message_id : String) (buffer : String) :
    List QueueItem → List Msg × String
  | [] => ([], buffer)
  | .aiMessage m :: rest =>
      let tail := drainLoop message_id buffer rest
      (m :: tail.1, tail.2)
  | item :: rest =>
      match chunkDelta item with
      | none => drainLoop message_id buffer rest
      | some d =>
          let buffer' := buffer ++ d
          let tail := drainLoop message_id buffer' rest
          (build_text_message message_id buffer' "streaming" :: tail.1, tail.2)

/-- The reasoning-loop state the Bridge touches: the mutable per-step timeout
field `_default_timeout` (an opaque numeric value; the Bridge never computes
with it) plus every other field, abstracted as `rest` (the interface of §6
guarantees the timeout field exists). -/
structure BridgeAgent (α : Type) where
  defaultTimeout : Int
  rest : α

/-- The background unit of work `run_and_signal` started by the Bridge,
linearized: the items it enqueues (FIFO), its outcome (`.ok result` for a
normal return of `agent.run`, `.error e` for an escaping exception), and its
effect on the non-timeout agent state (queue / completion flag / run
bookkeeping, including the `agent.clear()` / `task_done.clear()` reset). -/
structure BridgeRun (α : Type) where
  items : List QueueItem
  outcome : Except String String
  effect : α → α

/-- What one call of `stream_agent_events` produces: the yielded message
sequence, the generator's outcome (`.error e` when the background exception
propagates out of `result = await run_task`), the agent state after the
`finally` block, and the `_default_timeout` value in force while the run
executed. -/
structure BridgeResult (α : Type) where
  events : List Msg
  outcome : Except String Unit
  agent : BridgeAgent α
  runTimeout : Int

/-- `stream_agent_events(agent, user_message, timeout)`: saves
`_default_timeout`, overrides it with the caller's `timeout`, drains the
queue (yielding pass-through messages and cumulative `streaming` text
messages under one fresh `message_id`), then awaits the run: a non-empty
returned result replaces the buffer, and a final `done` message is yielded
iff the resulting text is non-empty; the `finally` block restores
`_default_timeout` on every exit path. -/
def stream_agent_events {α : Type} (agent : BridgeAgent α) (timeout : Int)
    (run : BridgeRun α) (message_id : String) : BridgeResult α :=
  let original := agent.defaultTimeout
  let running : BridgeAgent α := { agent with defaultTimeout := timeout }
  let restAfter := run.effect running.rest
  let drained := drainLoop message_id "" run.items
  match run.outcome with
  | .error e => ⟨drained.1, .error e, ⟨original, restAfter⟩, running.defaultTimeout⟩
  | .ok result =>
      let buffer := if result != "" then result else drained.2
      let events :=
        if buffer != "" then drained.1 ++ [build_text_message message_id buffer "done"]
        else drained.1
      ⟨events, .ok (), ⟨original, restAfter⟩, running.defaultTimeout⟩

/-- The concatenation of all deltas a queue script contributes to the text
buffer (skipped items contribute `""`). -/
def deltaConcat (items : List QueueItem) : String :=
  match items with
  | [] => ""
  | item :: rest => ((chunkDelta item).getD "") ++ deltaConcat rest

/-! ## JSON serialization (`json.dumps(..., ensure_ascii=False)`)

CPython with default separators: items joined by `", "`, keys and values
joined by `": "`; strings escaped per the C escape table (`\"`, `\\`, `\b`,
`\f`, `\n`, `\r`, `\t`, other control characters as `\u00XX` lowercase hex;
with `ensure_ascii=False` all other characters pass through verbatim). -/

/-- The decimal digit character for `n < 10`. -/
def decDigit (n : Nat) : Char := Char.ofNat (48 + n)

/-- The lowercase hex digit character for `n < 16`. -/
def hexDigit (n : Nat) : Char :=
  if n < 10 then Char.ofNat (48 + n) else Char.ofNat (87 + n)

/-- Decimal digits of `n`, most significant first, by recursion on a fuel
bound (any `fuel > n` gives the digits; keeping the recursion structural
lets every cache key and JSON payload reduce definitionally). -/
def natCharsAux : Nat → Nat → List Char
  | 0, _ => []
  | fuel + 1, n =>
      if n < 10 then [decDigit n]
      else natCharsAux fuel (n / 10) ++ [decDigit (n % 10)]

/-- Decimal digits of `n`, most significant first. -/
def natChars (n : Nat) : List Char := natCharsAux (n + 1) n

/-- Decimal rendering of an integer: optional minus sign, then digits. -/
def intChars (i : Int) : List Char :=
  (if i < 0 then ['-'] else []) ++ natChars i.natAbs

/-- One character of a JSON string body, escaped as CPython escapes it. -/
def jsonEscapeChar (c : Char) : List Char :=
  if c = '\\' then ['\\', '\\']
  else if c = '"' then ['\\', '"']
  else if c = Char.ofNat 8 then ['\\', 'b']
  else if c = Char.ofNat 12 then ['\\', 'f']
  else if c = '\n' then ['\\', 'n']
  else if c = '\r' then ['\\', 'r']
  else if c = '\t' then ['\\', 't']
  else if c.toNat < 32 then
    ['\\', 'u', '0', '0', hexDigit (c.toNat / 16), hexDigit (c.toNat % 16)]
  else [c]

/-- A JSON string literal: quote, escaped body, quote. -/
def dumpStrL (s : String) : List Char :=
  '"' :: (s.toList.flatMap jsonEscapeChar ++ ['"'])

mutual
/-- `json.dumps` of a value, as a character list. -/
def dumpVal : PyVal → List Char
  | .null => "null".toList
  | .bool true => "true".toList
  | .bool false => "false".toList
  | .int n => intChars n
  | .str s => dumpStrL s
  | .list items => '[' :: (dumpItems items ++ [']'])
  | .dict fields => '{' :: (dumpFields fields ++ ['}'])
/-- List elements joined by `", "`. -/
def dumpItems : List PyVal → List Char
  | [] => []
  | [v] => dumpVal v
  | v :: w :: rest => dumpVal v ++ ',' :: ' ' :: dumpItems (w :: rest)
/-- Dict entries `"key": value` joined by `", "`. -/
def dumpFields : List (String × PyVal) → List Char
  | [] => []
  | [(k, v)] => dumpStrL k ++ ':' :: ' ' :: dumpVal v
  | (k, v) :: kv :: rest =>
      dumpStrL k ++ ':' :: ' ' :: dumpVal v ++ ',' :: ' ' :: dumpFields (kv :: rest)
end

/-- `json.dumps(v, ensure_ascii=False)` (insertion-ordered keys). -/
def json_dumps (v : PyVal) : String := String.mk (dumpVal v)

/-- Insert a binding into a key-sorted binding list (Python dict keys are
unique, so how equal keys would tie-break is immaterial). -/
def insertSorted (kv : String × PyVal) : List (String × PyVal) → List (String × PyVal)
  | [] => [kv]
  | x :: xs => if kv.1 ≤ x.1 then kv :: x :: xs else x :: insertSorted kv xs

/-- Sort a binding list by key (insertion sort). -/
def keySortFields : List (String × PyVal) → List (String × PyVal)
  | [] => []
  | x :: xs => insertSorted x (keySortFields xs)

mutual
/-- `sort_keys=True`: recursively sort the bindings of every dict by key. -/
def sortVal : PyVal → PyVal
  | .null => .null
  | .bool b => .bool b
  | .int n => .int n
  | .str s => .str s
  | .list items => .list (sortItems items)
  | .dict fields => .dict (keySortFields (sortFields fields))
def sortItems : List PyVal → List PyVal
  | [] => []
  | v :: rest => sortVal v :: sortItems rest
def sortFields : List (String × PyVal) → List (String × PyVal)
  | [] => []
  | (k, v) :: rest => (k, sortVal v) :: sortFields rest
end

/-! ## JSON parsing (a standard RFC 8259 parser, `json.loads`)

Structural on a fuel counter (seeded with the input length, which bounds the
recursion depth a parse can need).  Numbers are modeled as integers, matching
the value domain `PyVal`. -/

/-- JSON insignificant whitespace. -/
def isWsChar (c : Char) : Bool := c = ' ' || c = '\t' || c = '\n' || c = '\r'

/-- Drop leading insignificant whitespace. -/
def skipSpaces : List Char → List Char
  | [] => []
  | c :: rest => if isWsChar c then skipSpaces rest else c :: rest

/-- ASCII decimal digit test. -/
def isDigitChar (c : Char) : Bool := '0' ≤ c && c ≤ '9'

/-- Whether a remainder cannot extend a decimal number: empty, or headed by
a non-digit (every delimiter a rendered value is followed by qualifies). -/
def noDigitHead : List Char → Bool
  | [] => true
  | c :: _ => !isDigitChar c

/-- Split off the longest leading run of decimal digits. -/
def grabDigits : List Char → List Char × List Char
  | [] => ([], [])
  | c :: rest =>
      if isDigitChar c then
        let p := grabDigits rest
        (c :: p.1, p.2)
      else ([], c :: rest)

/-- The number a digit run denotes. -/
def digitsNat (ds : List Char) : Nat :=
  ds.foldl (fun acc c => 10 * acc + (c.toNat - 48)) 0

/-- The character a single-letter escape denotes. -/
def unescapeChar (c : Char) : Option Char :=
  if c = '"' then some '"'
  else if c = '\\' then some '\\'
  else if c = '/' then some '/'
  else if c = 'b' then some (Char.ofNat 8)
  else if c = 'f' then some (Char.ofNat 12)
  else if c = 'n' then some '\n'
  else if c = 'r' then some '\r'
  else if c = 't' then some '\t'
  else none

/-- The value of one hex digit. -/
def hexNum (c : Char) : Option Nat :=
  if '0' ≤ c && c ≤ '9' then some (c.toNat - 48)
  else if 'a' ≤ c && c ≤ 'f' then some (c.toNat - 87)
  else if 'A' ≤ c && c ≤ 'F' then some (c.toNat - 55)
  else none

/-- Scan a string body after the opening quote, undoing escapes, up to the
closing quote. -/
def scanStringBody (acc : List Char) : List Char → Option (String × List Char)
  | '"' :: rest => some (String.mk acc.reverse, rest)
  | '\\' :: 'u' :: a :: b :: c :: d :: rest =>
      match hexNum a, hexNum b, hexNum c, hexNum d with
      | some x, some y, some z, some w =>
          scanStringBody (Char.ofNat (((x * 16 + y) * 16 + z) * 16 + w) :: acc) rest
      | _, _, _, _ => none
  | '\\' :: e :: rest =>
      match unescapeChar e with
      | some ch => scanStringBody (ch :: acc) rest
      | none => none
  | c :: rest => scanStringBody (c :: acc) rest
  | [] => none

mutual
/-- Parse one JSON value, returning it and the unconsumed remainder. -/
def parseJsonVal (fuel : Nat) (cs : List Char) : Option (PyVal × List Char) :=
  match fuel with
  | 0 => none
  | fuel + 1 =>
      match skipSpaces cs with
      | 'n' :: 'u' :: 'l' :: 'l' :: rest => some (.null, rest)
      | 't' :: 'r' :: 'u' :: 'e' :: rest => some (.bool true, rest)
      | 'f' :: 'a' :: 'l' :: 's' :: 'e' :: rest => some (.bool false, rest)
      | '"' :: rest =>
          match scanStringBody [] rest with
          | some (s, rest') => some (.str s, rest')
          | none => none
      | '[' :: rest =>
          match skipSpaces rest with
          | ']' :: rest' => some (.list [], rest')
          | other =>
              match parseJsonItems fuel other with
              | some (vs, rest') => some (.list vs, rest')
              | none => none
      | '{' :: rest =>
          match skipSpaces rest with
          | '}' :: rest' => some (.dict [], rest')
          | other =>
              match parseJsonFields fuel other with
              | some (fs, rest') => some (.dict fs, rest')
              | none => none
      | '-' :: rest =>
          match grabDigits rest with
          | ([], _) => none
          | (ds, rest') => some (.int (-(digitsNat ds : Int)), rest')
      | c :: rest =>
          if isDigitChar c then
            match grabDigits (c :: rest) with
            | (ds, rest') => some (.int ((digitsNat ds : Int)), rest')
          else none
      | [] => none
/-- Parse one-or-more comma-separated array elements up to `]`. -/
def parseJsonItems (fuel : Nat) (cs : List Char) : Option (List PyVal × List Char) :=
  match fuel with
  | 0 => none
  | fuel + 1 =>
      match parseJsonVal fuel cs with
      | none => none
      | some (v, rest) =>
          match skipSpaces rest with
          | ',' :: rest' =>
              match parseJsonItems fuel (skipSpaces rest') with
              | some (vs, rest'') => some (v :: vs, rest'')
              | none => none
          | ']' :: rest' => some ([v], rest')
          | _ => none
/-- Parse one-or-more comma-separated `"key": value` members up to `}`. -/
def parseJsonFields (fuel : Nat) (cs : List Char) :
    Option (List (String × PyVal) × List Char) :=
  match fuel with
  | 0 => none
  | fuel + 1 =>
      match skipSpaces cs with
      | '"' :: rest =>
          match scanStringBody [] rest with
          | none => none
          | some (key, rest1) =>
              match skipSpaces rest1 with
              | ':' :: rest2 =>
                  match parseJsonVal fuel (skipSpaces rest2) with
                  | none => none
                  | some (v, rest3) =>
                      match skipSpaces rest3 with
                      | ',' :: rest4 =>
                          match parseJsonFields fuel (skipSpaces rest4) with
                          | some (fs, rest5) => some ((key, v) :: fs, rest5)
                          | none => none
                      | '}' :: rest4 => some ([(key, v)], rest4)
                      | _ => none
              | _ => none
      | _ => none
end

/-- `json.loads(s)`: parse a complete JSON document; trailing non-whitespace
(or any syntax error) yields `none`, modeling `json.JSONDecodeError`. -/
def json_loads (s : String) : Option PyVal :=
  match parseJsonVal (s.toList.length + 1) s.toList with
  | some (v, rest) => if (skipSpaces rest).isEmpty then some v else none
  | none => none

/-! ## Tool Call Wrapper (`core/tools/tool_call_wrapper.py`)

`ToolCallWrapper.execute(**kwargs)` around one wrapped tool.  The
`inspect.signature` reflection ("does the tool's `execute` take `**kwargs`
or a `session_id` parameter, or does inspection itself fail") is resolved
once into the boolean `acceptsSessionParam`; the tool's behavior is its
`exec` function (`.error msg` models an exception with text `msg`). -/

/-- The wrapped tool: name, description, whether `session_id` injection
applies, and the underlying `execute`. -/
structure ToolModel where
  name : String
  description : String
  acceptsSessionParam : Bool
  exec : List (String × PyVal) → Except String PyVal

/-- The wrapper's `_context`: the optional `session_id` entry and whether a
`tool_cache` entry is present (the cache contents live in `WrapperState`). -/
structure WrapperContext where
  sessionId : Option String
  hasToolCache : Bool

/-- Mutable state threaded through a wrapper call: the uuid counter, the
shared `tool_cache` dict, the messages pushed through the emit sink, and a
count of underlying-tool invocations (proof bookkeeping only). -/
structure WrapperState where
  uuidSeed : Nat
  cache : List (String × PyVal)
  events : List Msg
  toolCalls : Nat

/-- The `session_id` injection prologue of `execute`. -/
def injectSessionId (tool : ToolModel) (ctx : WrapperContext)
    (kwargs : List (String × PyVal)) : List (String × PyVal) :=
  match ctx.sessionId with
  | some sid =>
      if (pyGet kwargs "session_id").isNone && tool.acceptsSessionParam then
        kwargs ++ [("session_id", .str sid)]
      else kwargs
  | none => kwargs

/-- `json.dumps(key_payload, ensure_ascii=False, sort_keys=True)` for
`{"tool": <name>, "kwargs": <kwargs minus session_id>}` (every `PyVal`
serializes, so the `TypeError` fallback to `str(key_payload)` is
unreachable in this value domain). -/
def wrapperCacheKey (tool : ToolModel) (kwargs : List (String × PyVal)) : String :=
  json_dumps (sortVal (.dict
    [("tool", .str tool.name),
     ("kwargs", .dict (kwargs.filter (fun kv => kv.1 != "session_id")))]))

/-- `{"description": self.description, **kwargs}` (dict-literal insertion
order: `description` first, later duplicate keys update in place). -/
def inputPayload (description : String) (kwargs : List (String × PyVal)) : PyVal :=
  .dict (kwargs.foldl (fun fs kv => pyDictInsert fs kv.1 kv.2)
    [("description", .str description)])

/-- The tool part dict `ToolCallWrapper._emit_tool_message` builds:
`errorText` only when the error text is truthy, otherwise `output` only in
state `output-available`. -/
def wrapperToolPart (toolName : String) (tool_call_id : String) (state : String)
    (input_payload : PyVal) (output : Option PyVal) (error_text : Option String) :
    Part :=
  .tool ("tool-" ++ toolName) tool_call_id state input_payload
    (if pyTruthy error_text then none
     else if state = "output-available" then some (output.getD .null) else none)
    (if pyTruthy error_text then error_text else none)

/-- One `_emit_tool_message` call: a no-op without a sink, otherwise it wraps
the part in a fresh-uuid assistant message and pushes it to the sink. -/
def wrapperEmit (toolName : String) (emitAttached : Bool) (tool_call_id : String)
    (state : String) (input_payload : PyVal) (output : Option PyVal)
    (error_text : Option String) (st : WrapperState) : WrapperState :=
  if emitAttached then
    { st with
      uuidSeed := st.uuidSeed + 1
      events := st.events ++
        [⟨uuidStr st.uuidSeed, "assistant",
          [wrapperToolPart toolName tool_call_id state input_payload output error_text]⟩] }
  else st

/-- The cache consultation of `execute`: a hit needs a `tool_cache` in the
context, a binding for the key, and a non-`None` cached value
(`if cached is not None`). -/
def wrapperCacheHit (tool : ToolModel) (ctx : WrapperContext)
    (kwargs : List (String × PyVal)) (st : WrapperState) : Option PyVal :=
  if ctx.hasToolCache then
    match pyGet st.cache (wrapperCacheKey tool kwargs) with
    | some cached => if cached.isNull then none else some cached
    | none => none
  else none

/-- `ToolCallWrapper.execute(**kwargs)`: inject `session_id` if applicable;
on a cache hit, emit the `(input-available, output-available)` pair with the
cached value and return it without invoking the tool; otherwise emit
`input-available`, invoke the tool, then either emit `output-available`,
populate the cache and return the result, or catch the exception, emit
`output-error` and return `{"error": <message>}`.  The function is total:
every tool exception is recovered here. -/
def ToolCallWrapper.execute (tool : ToolModel) (ctx : WrapperContext)
    (emitAttached : Bool) (kwargs : List (String × PyVal)) (st : WrapperState) :
    PyVal × WrapperState :=
  let kwargs := injectSessionId tool ctx kwargs
  match wrapperCacheHit tool ctx kwargs st with
  | some cached =>
      let tool_call_id := uuidStr st.uuidSeed
      let st := { st with uuidSeed := st.uuidSeed + 1 }
      let payload := inputPayload tool.description kwargs
      let st := wrapperEmit tool.name emitAttached tool_call_id "input-available"
        payload none none st
      let st := wrapperEmit tool.name emitAttached tool_call_id "output-available"
        payload (some cached) none st
      (cached, st)
  | none =>
      let tool_call_id := uuidStr st.uuidSeed
      let st := { st with uuidSeed := st.uuidSeed + 1 }
      let payload := inputPayload tool.description kwargs
      let st := wrapperEmit tool.name emitAttached tool_call_id "input-available"
        payload none none st
      let st := { st with toolCalls := st.toolCalls + 1 }
      match tool.exec kwargs with
      | .ok result =>
          let st := wrapperEmit tool.name emitAttached tool_call_id "output-available"
            payload (some result) none st
          let st :=
            if ctx.hasToolCache then
              { st with cache := pyDictInsert st.cache (wrapperCacheKey tool kwargs) result }
            else st
          (result, st)
      | .error exc =>
          let st := wrapperEmit tool.name emitAttached tool_call_id "output-error"
            payload none (some exc) st
          (.dict [("error", .str exc)], st)

/-! ## Sub-Agent Delegation Tool (`agents/sub_agents.py`)

`SubAgentTool.execute(name, message, description)` over a registry of named
reasoning loops.  A nested run is a function from the message to the value
`agent.run` returns (an exception inside the nested run is not caught by
this layer and is outside the verified claims, so runs are modeled total). -/

/-- Mutable state threaded through a delegation call: uuid counter and the
messages pushed through the emit sink. -/
structure SubState where
  uuidSeed : Nat
  events : List Msg

/-- `self._agents.get(name)` (a `SpoonReactAI` instance is truthy, so
`if not agent` coincides with a failed lookup). -/
def lookupAgent : List (String × (String → PyVal)) → String → Option (String → PyVal)
  | [], _ => none
  | (k, f) :: rest, n => if k = n then some f else lookupAgent rest n

/-- The tool part dict `SubAgentTool._emit_tool_message` builds: a truthy
error text forces `state = "output-error"` and sets `errorText`; otherwise
the `output` key is always set (to `None` when no output was passed). -/
def subAgentToolPart (tool_call_id : String) (state : String)
    (name : String) (message : String) (description : String)
    (output : Option PyVal) (error_text : Option String) : Part :=
  .tool "tool-subAgentCall" tool_call_id
    (if pyTruthy error_text then "output-error" else state)
    (.dict [("name", .str name), ("message", .str message),
            ("description", .str description)])
    (if pyTruthy error_text then none else some (output.getD .null))
    (if pyTruthy error_text then error_text else none)

/-- One `SubAgentTool._emit_tool_message` call (no sink: silent no-op). -/
def subAgentEmit (emitAttached : Bool) (tool_call_id : String) (state : String)
    (name : String) (message : String) (description : String)
    (output : Option PyVal) (error_text : Option String) (st : SubState) : SubState :=
  if emitAttached then
    { uuidSeed := st.uuidSeed + 1
      events := st.events ++
        [⟨uuidStr st.uuidSeed, "assistant",
          [subAgentToolPart tool_call_id state name message description
            output error_text]⟩] }
  else st

/-- `_looks_like_ai_message`: a dict with a string `id`, a string `role` and
a list `parts`. -/
def looks_like_ai_message : PyVal → Bool
  | .dict fields =>
      (match pyGet fields "id" with | some (.str _) => true | _ => false)
      && (match pyGet fields "role" with | some (.str _) => true | _ => false)
      && (match pyGet fields "parts" with | some (.list _) => true | _ => false)
  | _ => false

/-- An ASCII single quote (kept out of source literals). -/
def squote : String := String.mk [Char.ofNat 39]

mutual
/-- Python `repr` of a JSON-like value (simplified: strings are wrapped in
single quotes without inner escaping — no verified claim inspects the text
of a repr). -/
def pyRepr : PyVal → String
  | .null => "None"
  | .bool true => "True"
  | .bool false => "False"
  | .int n => String.mk (intChars n)
  | .str s => squote ++ s ++ squote
  | .list items => "[" ++ pyReprItems items ++ "]"
  | .dict fields => "\x7b" ++ pyReprFields fields ++ "\x7d"
def pyReprItems : List PyVal → String
  | [] => ""
  | [v] => pyRepr v
  | v :: w :: rest => pyRepr v ++ ", " ++ pyReprItems (w :: rest)
def pyReprFields : List (String × PyVal) → String
  | [] => ""
  | [(k, v)] => squote ++ k ++ squote ++ ": " ++ pyRepr v
  | (k, v) :: kv :: rest =>
      squote ++ k ++ squote ++ ": " ++ pyRepr v ++ ", " ++ pyReprFields (kv :: rest)
end

/-- Python `str(v)`: the string itself for strings, else its repr. -/
def pyStr : PyVal → String
  | .str s => s
  | v => pyRepr v

/-- The fresh message `_coerce_ai_message` wraps a non-message result in:
one `done` text part. -/
def wrapTextMsg (u : String) (txt : String) : PyVal :=
  .dict [("id", .str u), ("role", .str "assistant"),
         ("parts", .list [.dict [("type", .str "text"), ("text", .str txt),
                                 ("state", .str "done")]])]

/-- `SubAgentTool._coerce_ai_message(result)`: pass a message-shaped dict
through; JSON-decode a string and use it if message-shaped, else wrap the
string itself; wrap `str(result)` for anything else.  Also returns the uuid
counter (advanced only when a wrap drew a fresh id). -/
def coerce_ai_message (seed : Nat) (result : PyVal) : PyVal × Nat :=
  if looks_like_ai_message result then (result, seed)
  else
    match result with
    | .str s =>
        match json_loads s with
        | some parsed =>
            if looks_like_ai_message parsed then (parsed, seed)
            else (wrapTextMsg (uuidStr seed) s, seed + 1)
        | none => (wrapTextMsg (uuidStr seed) s, seed + 1)
    | v => (wrapTextMsg (uuidStr seed) (pyStr v), seed + 1)

/-- Python `str.strip()` whitespace (the ASCII part of the set). -/
def isPyStripWs (c : Char) : Bool :=
  c = ' ' || c = '\t' || c = '\n' || c = '\r' || c = Char.ofNat 11 || c = Char.ofNat 12

/-- Drop leading strip-whitespace characters. -/
def dropLeadWs : List Char → List Char
  | [] => []
  | c :: rest => if isPyStripWs c then dropLeadWs rest else c :: rest

/-- Python `s.strip()`. -/
def pyStrip (s : String) : String :=
  String.mk ((dropLeadWs (dropLeadWs s.toList).reverse).reverse)

/-- The texts collected by `_extract_text`'s loop: dict parts whose `type`
is `"text"` contribute `part.get("text", "")`; a present non-string `text`
value would make the `"".join` raise (`.error`, unreachable from
`execute`). -/
def textPieces : List PyVal → Except String (List String)
  | [] => .ok []
  | part :: rest =>
      match part with
      | .dict fields =>
          (match pyGet fields "type" with
           | some (.str t) =>
               if t = "text" then
                 match pyGet fields "text" with
                 | none => (textPieces rest).map (fun ts => "" :: ts)
                 | some (.str s) => (textPieces rest).map (fun ts => s :: ts)
                 | some _ => .error "TypeError"
               else textPieces rest
           | _ => textPieces rest)
      | _ => textPieces rest

/-- `SubAgentTool._extract_text(ai_message)`: join the text parts and strip
surrounding whitespace (callers always pass a dict whose `parts` is a list,
the other cases model the exceptions Python would raise there). -/
def extract_text (ai_message : PyVal) : Except String String :=
  match ai_message with
  | .dict fields =>
      match pyGet fields "parts" with
      | some (.list parts) =>
          (textPieces parts).map (fun ts => pyStrip (String.join ts))
      | none => .ok (pyStrip (String.join []))
      | some _ => .error "TypeError"
  | _ => .error "AttributeError"

/-- `SubAgentTool.execute(name, message, description)`: default an empty
description, draw the tool-call id, then either report an unknown sub-agent
(one `output-error` event, descriptive return string, no exception) or emit
`input-available`, run the nested loop to completion, coerce its result,
emit `output-available` with the full coerced message, and return the
extracted text (or the JSON serialization of the message when that text is
empty). -/
def SubAgentTool.execute (agents : List (String × (String → PyVal)))
    (emitAttached : Bool) (name : String) (message : String) (description : String)
    (st : SubState) : Except String String × SubState :=
  let description := if description = "" then "Call sub-agent " ++ name else description
  let tool_call_id := uuidStr st.uuidSeed
  let st := { st with uuidSeed := st.uuidSeed + 1 }
  match lookupAgent agents name with
  | none =>
      let error_text := "Unknown sub-agent: " ++ name
      let st := subAgentEmit emitAttached tool_call_id "output-error"
        name message description none (some error_text) st
      (.ok error_text, st)
  | some run =>
      let st := subAgentEmit emitAttached tool_call_id "input-available"
        name message description none none st
      let result := run message
      let c := coerce_ai_message st.uuidSeed result
      let ai_message := c.1
      let st := { st with uuidSeed := c.2 }
      let st := subAgentEmit emitAttached tool_call_id "output-available"
        name message description (some ai_message) none st
      match extract_text ai_message with
      | .error e => (.error e, st)
      | .ok text => (.ok (if text != "" then text else json_dumps ai_message), st)

/-! ## OpenAI-compatible adapter (`api/routes/openai.py`, `stream_response`)

The wire frames are modeled structurally: one `OaiFrame.chunk` per
`data: {...}` chat-completion chunk (the constant `id`/`object`/`created`/
`model` envelope fields are identical on every chunk of a response and are
omitted), and `OaiFrame.doneSentinel` for the terminating `data: [DONE]`
record.  The consumed events are the bridge's messages, so
`_extract_parts`'s fallback branch for part-less `delta`/`content`/`text`
dicts never fires and only the parts path is embedded. -/

/-- One `delta.tool_calls[0]` entry (`index` is always 0, `type` always
`"function"`). -/
structure ToolCallDelta where
  id : String
  name : String
  arguments : String
deriving DecidableEq, Repr

/-- A chunk's `delta` object (absent keys are `none`). -/
structure OaiDelta where
  role : Option String
  content : Option String
  tool_calls : Option ToolCallDelta
deriving DecidableEq, Repr

/-- One streamed chat-completion chunk. -/
structure OaiChunk where
  delta : OaiDelta
  finish_reason : Option String
deriving DecidableEq, Repr

/-- One SSE record of the OpenAI-compatible stream. -/
inductive OaiFrame where
  | chunk (c : OaiChunk)
  | doneSentinel
deriving DecidableEq, Repr

/-- Python `s.startswith(pre)` (code-point-wise prefix test; kept on
character lists so it evaluates structurally). -/
def pyStartsWith (s pre : String) : Bool := pre.toList.isPrefixOf s.toList

/-- Python `len(s)` (code points). -/
def pyLen (s : String) : Nat := s.toList.length

/-- Python `s[n:]` (drop the first `n` code points; never negative-length). -/
def pySlice (s : String) (n : Nat) : String := String.mk (s.toList.drop n)

/-- `_extract_parts(event)`: the concatenation of the string texts of the
`text` parts (`None` when there are none), and the parts whose type starts
with `"tool-"`. -/
def extract_parts (event : Msg) : Option String × List Part :=
  let texts := event.parts.filterMap (fun p =>
    match p with | .text t _ => some t | _ => none)
  let tool_parts := event.parts.filter (fun p =>
    match p with
    | .tool ty _ _ _ _ _ => pyStartsWith ty "tool-"
    | _ => false)
  (if texts.isEmpty then none else some (String.join texts), tool_parts)

/-- Python truthiness of a `PyVal`. -/
def PyVal.truthy : PyVal → Bool
  | .null => false
  | .bool b => b
  | .int n => n != 0
  | .str s => s != ""
  | .list items => !items.isEmpty
  | .dict fields => !fields.isEmpty

/-- Remove the first occurrence of `pat` from a character list
(`str.replace(pat, "", 1)`). -/
def removeFirstOcc (pat : List Char) : List Char → List Char
  | [] => []
  | c :: rest =>
      if pat.isPrefixOf (c :: rest) then (c :: rest).drop pat.length
      else c :: removeFirstOcc pat rest

/-- `tool_type.replace("tool-", "", 1)`. -/
def replace_tool_dash (s : String) : String :=
  String.mk (removeFirstOcc ("tool-".toList) s.toList)

/-- The adapter's per-response mutable state: `last_text`, `sent_role`, the
`seen_tool_calls` dict (id → tool name; consulted only for membership) and
the uuid counter (drawn for a tool part with a falsy `toolCallId`).  The
`emitted_any` flag and `tool_outputs` list feed logging only and are not
modeled. -/
structure OaiState where
  last_text : String
  sent_role : Bool
  seen_tool_calls : List (String × String)
  uuidSeed : Nat

/-- The text branch of `stream_response`'s event loop: send the suffix
beyond `last_text` when the new text extends it, else the whole new text;
a chunk goes out when the delta is non-empty or the role is still unsent. -/
def processTextEvent (st : OaiState) (text : String) : OaiState × List OaiFrame :=
  let delta_text :=
    if pyStartsWith text st.last_text then pySlice text (pyLen st.last_text) else text
  let st := { st with last_text := text }
  if delta_text != "" || !st.sent_role then
    ({ st with sent_role := true },
     [.chunk ⟨⟨if st.sent_role then none else some "assistant",
               if delta_text != "" then some delta_text else none,
               none⟩, none⟩])
  else (st, [])

/-- The tool-part branch of the event loop: a first sighting of a
`toolCallId` in a non-terminal state emits one `tool_calls` delta with the
JSON-serialized arguments; a terminal state emits a plain content delta
carrying the stringified output (or error text). -/
def processToolPart (st : OaiState) (p : Part) : OaiState × List OaiFrame :=
  match p with
  | .text _ _ => (st, [])
  | .tool tool_type tcid state input output errorText =>
      let tool_name := if tool_type != "" then replace_tool_dash tool_type else "tool"
      let tool_call_id := if tcid != "" then tcid else uuidStr st.uuidSeed
      let st := if tcid != "" then st else { st with uuidSeed := st.uuidSeed + 1 }
      let input_payload := if input.truthy then input else .dict []
      let r1 : OaiState × List OaiFrame :=
        if state = "input-available" || state = "input-streaming"
            || state = "approval-requested" then
          if (st.seen_tool_calls.lookup tool_call_id).isSome then (st, [])
          else
            let st := { st with
              seen_tool_calls := st.seen_tool_calls ++ [(tool_call_id, tool_name)] }
            let args := match input_payload with
                        | .dict _ => input_payload
                        | other => .dict [("input", other)]
            ({ st with sent_role := true },
             [.chunk ⟨⟨if st.sent_role then none else some "assistant", none,
                       some ⟨tool_call_id, tool_name, json_dumps args⟩⟩, none⟩])
        else (st, [])
      let st := r1.1
      let r2 : OaiState × List OaiFrame :=
        if state = "output-available" || state = "output-error" then
          let outputVal : Option PyVal :=
            match output with
            | some v => if v.isNull then errorText.map PyVal.str else some v
            | none => errorText.map PyVal.str
          let content := match outputVal with
                         | some (.str s) => s
                         | some v => json_dumps v
                         | none => json_dumps .null
          ({ st with sent_role := true },
           [.chunk ⟨⟨if st.sent_role then none else some "assistant",
                     some content, none⟩, none⟩])
        else (st, [])
      (r2.1, r1.2 ++ r2.2)

/-- Fold `processToolPart` over an event's tool parts, in order. -/
def processToolParts (st : OaiState) : List Part → OaiState × List OaiFrame
  | [] => (st, [])
  | p :: rest =>
      let r1 := processToolPart st p
      let r2 := processToolParts r1.1 rest
      (r2.1, r1.2 ++ r2.2)

/-- One iteration of `stream_response`'s `async for` body: skip events with
neither text nor tool parts, otherwise run the text branch then the
tool-part branch. -/
def processEvent (st : OaiState) (event : Msg) : OaiState × List OaiFrame :=
  let tp := extract_parts event
  if tp.1.isNone && tp.2.isEmpty then (st, [])
  else
    let r1 := match tp.1 with
              | some t => processTextEvent st t
              | none => (st, [])
    let r2 := processToolParts r1.1 tp.2
    (r2.1, r1.2 ++ r2.2)

/-- Fold the event loop over the whole bridge sequence. -/
def processEvents (st : OaiState) : List Msg → OaiState × List OaiFrame
  | [] => (st, [])
  | e :: rest =>
      let r1 := processEvent st e
      let r2 := processEvents r1.1 rest
      (r2.1, r1.2 ++ r2.2)

/-- The state `stream_response` starts from. -/
def initOaiState : OaiState := ⟨"", false, [], 0⟩

/-- `stream_response()`: the event loop's chunks, then the
`finish_reason="stop"` chunk, then the `data: [DONE]` sentinel. -/
def stream_response (events : List Msg) : List OaiFrame :=
  (processEvents initOaiState events).2
    ++ [.chunk ⟨⟨none, none, none⟩, some "stop"⟩, .doneSentinel]

/-- The number of frames that carry `delta.role = "assistant"`. -/
def countRole (frames : List OaiFrame) : Nat :=
  match frames with
  | [] => 0
  | .chunk c :: rest =>
      (if c.delta.role = some "assistant" then 1 else 0) + countRole rest
  | .doneSentinel :: rest => countRole rest

/-- Whether a frame carries any `delta.content` or `delta.tool_calls`. -/
def carriesPayload : OaiFrame → Bool
  | .chunk c => c.delta.content.isSome || c.delta.tool_calls.isSome
  | .doneSentinel => false

/-! ## Non-streaming mode of `chat_completions` (`api/routes/openai.py`)

The `stream=false` branch loops `text = _extract_text(event)` over the same
bridge sequence.  Name resolution is modeled by lookup in the module's
top-level namespace: `openaiModuleNames` lists every name bound at module
level in `spoonos_server/api/routes/openai.py` (imports and definitions, in
source order), and no builtin is named `_extract_text`, so the first loop
iteration raises `NameError` (the function of that name in the codebase is
a method of `SubAgentTool` in another module, not in scope here). -/

/-- The top-level names of `spoonos_server/api/routes/openai.py`. -/
def openaiModuleNames : List String :=
  ["json", "logging", "os", "time", "uuid",
   "Any", "AsyncIterator", "Dict", "List", "Optional", "Tuple",
   "APIRouter", "HTTPException", "StreamingResponse",
   "BaseModel", "ConfigDict", "Field",
   "create_react_agent", "stream_agent_events", "load_config",
   "router", "config", "logger", "debug_enabled",
   "OpenAIChatMessage", "OpenAIChatCompletionRequest",
   "_extract_parts", "_select_user_message", "_build_system_prompt",
   "chat_completions"]

/-- The non-streaming drain of `chat_completions`: with no event the loop
body never runs and the response carries `final_text = ""`; with any event
the first iteration evaluates the global `_extract_text`, whose resolution
against the module namespace fails, raising `NameError` (the `.ok` arm of
the resolved case is dead: the membership test is false). -/
def chat_completions_nonstream (events : List Msg) : Except String String :=
  match events with
  | [] => .ok ""
  | _ :: _ =>
      if openaiModuleNames.contains "_extract_text" then .ok ""
      else .error "NameError"

/-! ## Native adapter (`server/app.py`, `event_stream`)

Each bridge message is serialized as one frame:
`json.dumps(event, ensure_ascii=False, default=_json_default)` — the
`default` hook fires only for non-JSON-serializable objects, and every
value of this model's domain is a plain dict/list/str/int/bool/None, so the
payload is exactly the JSON text of the message dict; SSE mode wraps it as
`data: <payload>\n\n`. -/

/-- The dict a `Part` is, on the wire (an `Option.none` field is an absent
key, matching how the emitters build these dicts). -/
def partToVal : Part → PyVal
  | .text t s =>
      .dict [("type", .str "text"), ("text", .str t), ("state", .str s)]
  | .tool ty tcid state input output errorText =>
      .dict ([("type", .str ty), ("toolCallId", .str tcid),
              ("state", .str state), ("input", input)]
        ++ (match errorText with
            | some e => [("errorText", .str e)]
            | none =>
                match output with
                | some o => [("output", o)]
                | none => []))

/-- The dict a `Msg` is, on the wire. -/
def msgToVal (m : Msg) : PyVal :=
  .dict [("id", .str m.id), ("role", .str m.role),
         ("parts", .list (m.parts.map partToVal))]

/-- One frame of `event_stream`: the JSON payload, SSE-wrapped when
`stream_mode == "sse"`. -/
def event_stream_frame (sse : Bool) (m : Msg) : String :=
  let payload := json_dumps (msgToVal m)
  if sse then "data: " ++ payload ++ "\n\n" else payload

/-- A client's SSE record decoding: strip the 6-character `data: ` prefix
and the trailing blank-line terminator. -/
def sse_payload (frame : String) : String :=
  String.mk ((frame.toList.drop 6).dropLast.dropLast)

/-- The `delta.content` of a frame, if any. -/
def frameContent : OaiFrame → Option String
  | .chunk c => c.delta.content
  | .doneSentinel => none

/-- Proof bookkeeping for the OpenAI adapter: one processing step from `st`
to `st'` that emitted `fs` behaves like the source's `sent_role` protocol —
the flag records whether anything was emitted so far, and a single
`role = "assistant"` marker goes out on the first emitted chunk. -/
def RoleStep (st st' : OaiState) (fs : List OaiFrame) : Prop :=
  st'.sent_role = (st.sent_role || !fs.isEmpty)
  ∧ countRole fs = (if st.sent_role then 0 else if fs.isEmpty then 0 else 1)

/-! # Theorems -/

/-! ## The Streaming Event Bridge (claims C1, C8, C10) -/

/-- The buffer after draining a queue script is the starting buffer followed
by every contributed delta. -/
theorem drainLoop_snd (mid : String) (items : List QueueItem) : ∀ (b : String),
    (drainLoop mid b items).2 = b ++ deltaConcat items := by
  induction items with
  | nil => intro b; simp [drainLoop, deltaConcat]
  | cons item rest ih =>
      intro b
      cases item with
      | aiMessage m => simp [drainLoop, deltaConcat, chunkDelta, ih]
      | rawStr s =>
          by_cases hs : s = ""
          · subst hs
            simp [drainLoop, chunkDelta, pyOr, pyTruthy, deltaConcat, ih]
          · simp [drainLoop, chunkDelta, pyOr, pyTruthy, hs, deltaConcat, ih,
              String.append_assoc]
      | rawDict d c t =>
          cases hd : pyOr d (pyOr c t) with
          | none =>
              simp [drainLoop, chunkDelta, hd, deltaConcat, ih]
          | some x =>
              simp [drainLoop, chunkDelta, hd, deltaConcat, ih, String.append_assoc]

/-- **C1.** Deltas `"A"`, `"B"`, `"C"` followed by a clean completion yield
streaming messages carrying the cumulative `"A"`, `"AB"`, `"ABC"` (never the
bare delta) under the one generated message id, then exactly one `done`
message with `"ABC"`; in general the `done` message carries the run's
returned result when that is non-empty (superseding the buffer), otherwise
the accumulated buffer, and is emitted only when that text is non-empty. -/
theorem bridge_cumulative_stream_and_done :
    (∀ (α : Type) (agent : BridgeAgent α) (timeout : Int) (eff : α → α) (mid : String),
      (stream_agent_events agent timeout
          ⟨[.rawStr "A", .rawStr "B", .rawStr "C"], .ok "", eff⟩ mid).events
        = [build_text_message mid "A" "streaming",
           build_text_message mid "AB" "streaming",
           build_text_message mid "ABC" "streaming",
           build_text_message mid "ABC" "done"])
    ∧ (∀ (α : Type) (agent : BridgeAgent α) (timeout : Int) (items : List QueueItem)
        (result : String) (eff : α → α) (mid : String),
        (stream_agent_events agent timeout ⟨items, .ok result, eff⟩ mid).events
          = (drainLoop mid "" items).1
            ++ (if (if result ≠ "" then result else deltaConcat items) ≠ ""
                then [build_text_message mid
                       (if result ≠ "" then result else deltaConcat items) "done"]
                else [])) := by
  constructor
  · intro α agent timeout eff mid
    rfl
  · intro α agent timeout items result eff mid
    simp only [stream_agent_events, drainLoop_snd, String.empty_append, bne_iff_ne, ne_eq]
    split <;> (try split) <;> simp

/-- **C8.** The run observes the caller-supplied timeout in
`_default_timeout`; on every exit path (normal completion or an escaping
exception) the prior value is restored by the `finally` block, and the
timeout handling touches no other agent field (the rest of the agent state
is exactly what the background run's own effects made of it). -/
theorem bridge_timeout_override_restored :
    ∀ (α : Type) (agent : BridgeAgent α) (timeout : Int) (run : BridgeRun α)
      (mid : String),
      (stream_agent_events agent timeout run mid).runTimeout = timeout
      ∧ (stream_agent_events agent timeout run mid).agent.defaultTimeout
          = agent.defaultTimeout
      ∧ (stream_agent_events agent timeout run mid).agent.rest
          = run.effect agent.rest := by
  intro α agent timeout run mid
  unfold stream_agent_events
  cases hr : run.outcome <;> simp

/-- **C10, counterexample.** A dequeued dict whose `text` entry is the empty
string is *not* dropped: the `or`-chain returns its last operand even when
falsy, so the Bridge emits a streaming message (carrying the unchanged,
here empty, buffer) for it. -/
theorem bridge_empty_text_field_still_emits :
    (stream_agent_events (α := Unit) ⟨0, ()⟩ 0
        ⟨[.rawDict none none (some "")], .ok "", id⟩ "m").events
      = [build_text_message "m" "" "streaming"]
    ∧ [build_text_message "m" "" "streaming"] ≠ ([] : List Msg) := by
  constructor
  · rfl
  · simp

/-- **C10, amended.** An empty-string raw delta leaves the buffer unchanged,
and is skipped entirely — emitting nothing — when it arrives as a bare
string or in a dict's `delta`/`content` position; but a dict whose `text`
entry is `""` (its `delta`/`content` entries absent or empty) yields one
streaming message that repeats the unchanged buffer, because `""` survives
as the last operand of the `or`-chain. -/
theorem bridge_empty_delta_amended (mid b : String) (rest : List QueueItem)
    (d c : Option String) (hd : d = none ∨ d = some "")
    (hc : c = none ∨ c = some "") :
    drainLoop mid b (.rawStr "" :: rest) = drainLoop mid b rest
    ∧ drainLoop mid b (.rawDict d c none :: rest) = drainLoop mid b rest
    ∧ drainLoop mid b (.rawDict d c (some "") :: rest)
        = (build_text_message mid b "streaming" :: (drainLoop mid b rest).1,
           (drainLoop mid b rest).2) := by
  refine ⟨?_, ?_, ?_⟩
  · simp [drainLoop, chunkDelta, pyOr, pyTruthy]
  · rcases hd with rfl | rfl <;> rcases hc with rfl | rfl <;>
      simp [drainLoop, chunkDelta, pyOr, pyTruthy]
  · rcases hd with rfl | rfl <;> rcases hc with rfl | rfl <;>
      simp [drainLoop, chunkDelta, pyOr, pyTruthy]

/-- Witness for `bridge_empty_delta_amended` at a concrete instance. -/
theorem bridge_empty_delta_amended_check :
    drainLoop "m" "x" [.rawStr ""] = drainLoop "m" "x" []
    ∧ drainLoop "m" "x" [.rawDict none (some "") none] = drainLoop "m" "x" []
    ∧ drainLoop "m" "x" [.rawDict none (some "") (some "")]
        = (build_text_message "m" "x" "streaming" :: (drainLoop "m" "x" []).1,
           (drainLoop "m" "x" []).2) :=
  bridge_empty_delta_amended "m" "x" [] none (some "") (Or.inl rfl) (Or.inr rfl)

/-! ## The Tool Call Wrapper (claims C2, C3) -/

/-- Looking up the key just inserted finds the inserted value. -/
theorem pyGet_insert (fs : List (String × PyVal)) (k : String) (v : PyVal) :
    pyGet (pyDictInsert fs k v) k = some v := by
  induction fs with
  | nil => simp [pyDictInsert, pyGet]
  | cons kv rest ih =>
      by_cases h : kv.1 = k <;> simp [pyDictInsert, pyGet, h, ih]

/-- Characterization of `ToolCallWrapper.execute` on a cache miss with a
succeeding tool: lifecycle pair emitted, result returned, cache populated
(when present), one underlying invocation. -/
theorem wrapper_execute_miss_ok
    (tool : ToolModel) (ctx : WrapperContext) (kwargs : List (String × PyVal))
    (st : WrapperState) (v : PyVal)
    (hmiss : wrapperCacheHit tool ctx (injectSessionId tool ctx kwargs) st = none)
    (hexec : tool.exec (injectSessionId tool ctx kwargs) = .ok v) :
    ToolCallWrapper.execute tool ctx true kwargs st
      = (v,
         { uuidSeed := st.uuidSeed + 3
           cache :=
             if ctx.hasToolCache then
               pyDictInsert st.cache
                 (wrapperCacheKey tool (injectSessionId tool ctx kwargs)) v
             else st.cache
           events := st.events ++
             [⟨uuidStr (st.uuidSeed + 1), "assistant",
               [.tool ("tool-" ++ tool.name) (uuidStr st.uuidSeed) "input-available"
                 (inputPayload tool.description (injectSessionId tool ctx kwargs))
                 none none]⟩,
              ⟨uuidStr (st.uuidSeed + 2), "assistant",
               [.tool ("tool-" ++ tool.name) (uuidStr st.uuidSeed) "output-available"
                 (inputPayload tool.description (injectSessionId tool ctx kwargs))
                 (some v) none]⟩]
           toolCalls := st.toolCalls + 1 }) := by
  simp only [ToolCallWrapper.execute, hmiss, hexec, wrapperEmit, wrapperToolPart,
    pyTruthy, if_true]
  split <;>
    simp [List.append_assoc, show st.uuidSeed + 1 + 1 + 1 = st.uuidSeed + 3 from by omega,
      show st.uuidSeed + 1 + 1 = st.uuidSeed + 2 from by omega]

/-- Characterization of `ToolCallWrapper.execute` on a cache miss with a
raising tool: lifecycle pair `(input-available, output-error)` emitted, the
exception converted to an `{"error": <message>}` return, no cache write. -/
theorem wrapper_execute_miss_err
    (tool : ToolModel) (ctx : WrapperContext) (kwargs : List (String × PyVal))
    (st : WrapperState) (msg : String)
    (hmiss : wrapperCacheHit tool ctx (injectSessionId tool ctx kwargs) st = none)
    (hexec : tool.exec (injectSessionId tool ctx kwargs) = .error msg) :
    ToolCallWrapper.execute tool ctx true kwargs st
      = (.dict [("error", .str msg)],
         { uuidSeed := st.uuidSeed + 3
           cache := st.cache
           events := st.events ++
             [⟨uuidStr (st.uuidSeed + 1), "assistant",
               [.tool ("tool-" ++ tool.name) (uuidStr st.uuidSeed) "input-available"
                 (inputPayload tool.description (injectSessionId tool ctx kwargs))
                 none none]⟩,
              ⟨uuidStr (st.uuidSeed + 2), "assistant",
               [.tool ("tool-" ++ tool.name) (uuidStr st.uuidSeed) "output-error"
                 (inputPayload tool.description (injectSessionId tool ctx kwargs))
                 none (if msg = "" then none else some msg)]⟩]
           toolCalls := st.toolCalls + 1 }) := by
  simp only [ToolCallWrapper.execute, hmiss, hexec, wrapperEmit, wrapperToolPart,
    pyTruthy, if_true]
  by_cases hm : msg = "" <;>
    simp [hm, List.append_assoc, show st.uuidSeed + 1 + 1 + 1 = st.uuidSeed + 3 from by omega,
      show st.uuidSeed + 1 + 1 = st.uuidSeed + 2 from by omega]

/-- Characterization of `ToolCallWrapper.execute` on a cache hit: the two
lifecycle events still go out, the cached value is the `output-available`
payload and the return value, and the underlying tool is not invoked. -/
theorem wrapper_execute_hit
    (tool : ToolModel) (ctx : WrapperContext) (kwargs : List (String × PyVal))
    (st : WrapperState) (v : PyVal)
    (hhit : wrapperCacheHit tool ctx (injectSessionId tool ctx kwargs) st = some v) :
    ToolCallWrapper.execute tool ctx true kwargs st
      = (v,
         { uuidSeed := st.uuidSeed + 3
           cache := st.cache
           events := st.events ++
             [⟨uuidStr (st.uuidSeed + 1), "assistant",
               [.tool ("tool-" ++ tool.name) (uuidStr st.uuidSeed) "input-available"
                 (inputPayload tool.description (injectSessionId tool ctx kwargs))
                 none none]⟩,
              ⟨uuidStr (st.uuidSeed + 2), "assistant",
               [.tool ("tool-" ++ tool.name) (uuidStr st.uuidSeed) "output-available"
                 (inputPayload tool.description (injectSessionId tool ctx kwargs))
                 (some v) none]⟩]
           toolCalls := st.toolCalls }) := by
  simp only [ToolCallWrapper.execute, hhit, wrapperEmit, wrapperToolPart,
    pyTruthy, if_true]
  simp [List.append_assoc, show st.uuidSeed + 1 + 1 + 1 = st.uuidSeed + 3 from by omega,
    show st.uuidSeed + 1 + 1 = st.uuidSeed + 2 from by omega]

/-- **C2, counterexample.** A tool raising an exception whose message is the
empty string: the wrapper still recovers and returns `{"error": ""}`, but
the emitted `output-error` part carries *no* `errorText` key at all (the
emitter tests `if error_text:`, and `""` is falsy), so the event does not
carry an `errorText` equal to the exception message. -/
theorem wrapper_empty_error_message_counterexample :
    (ToolCallWrapper.execute ⟨"t", "d", false, fun _ => .error ""⟩ ⟨none, false⟩ true []
        ⟨0, [], [], 0⟩).2.events
      = [⟨uuidStr 1, "assistant",
          [.tool "tool-t" (uuidStr 0) "input-available"
            (.dict [("description", .str "d")]) none none]⟩,
         ⟨uuidStr 2, "assistant",
          [.tool "tool-t" (uuidStr 0) "output-error"
            (.dict [("description", .str "d")]) none none]⟩]
    ∧ (ToolCallWrapper.execute ⟨"t", "d", false, fun _ => .error ""⟩ ⟨none, false⟩ true []
        ⟨0, [], [], 0⟩).1 = .dict [("error", .str "")]
    ∧ (none : Option String) ≠ some "" := by
  refine ⟨rfl, rfl, by simp⟩

/-- **C2, amended.** For every tool and kwargs input on which the underlying
`execute` raises — provided the call is not served from the tool cache —
the wrapper raises no exception (it is a total function here, every tool
exception being caught): it emits `input-available` then `output-error`
with the same `toolCallId`, sets `errorText` to the exception message when
that message is non-empty (omitting the key for an empty message), and
returns `{"error": <message>}`. -/
theorem wrapper_error_conversion_amended
    (tool : ToolModel) (ctx : WrapperContext) (kwargs : List (String × PyVal))
    (st : WrapperState) (msg : String)
    (hmiss : wrapperCacheHit tool ctx (injectSessionId tool ctx kwargs) st = none)
    (hexec : tool.exec (injectSessionId tool ctx kwargs) = .error msg) :
    (ToolCallWrapper.execute tool ctx true kwargs st).1 = .dict [("error", .str msg)]
    ∧ (ToolCallWrapper.execute tool ctx true kwargs st).2.events
        = st.events ++
          [⟨uuidStr (st.uuidSeed + 1), "assistant",
            [.tool ("tool-" ++ tool.name) (uuidStr st.uuidSeed) "input-available"
              (inputPayload tool.description (injectSessionId tool ctx kwargs))
              none none]⟩,
           ⟨uuidStr (st.uuidSeed + 2), "assistant",
            [.tool ("tool-" ++ tool.name) (uuidStr st.uuidSeed) "output-error"
              (inputPayload tool.description (injectSessionId tool ctx kwargs))
              none (if msg = "" then none else some msg)]⟩] := by
  rw [wrapper_execute_miss_err tool ctx kwargs st msg hmiss hexec]
  exact ⟨rfl, rfl⟩

/-- Witness for `wrapper_error_conversion_amended` at a concrete raising
tool. -/
theorem wrapper_error_conversion_amended_check :
    (ToolCallWrapper.execute ⟨"t", "d", false, fun _ => .error "boom"⟩ ⟨none, false⟩ true []
        ⟨0, [], [], 0⟩).1 = .dict [("error", .str "boom")]
    ∧ (ToolCallWrapper.execute ⟨"t", "d", false, fun _ => .error "boom"⟩ ⟨none, false⟩ true []
        ⟨0, [], [], 0⟩).2.events
        = [] ++
          [⟨uuidStr 1, "assistant",
            [.tool "tool-t" (uuidStr 0) "input-available"
              (.dict [("description", .str "d")]) none none]⟩,
           ⟨uuidStr 2, "assistant",
            [.tool "tool-t" (uuidStr 0) "output-error"
              (.dict [("description", .str "d")]) none (some "boom")]⟩] :=
  wrapper_error_conversion_amended ⟨"t", "d", false, fun _ => .error "boom"⟩ ⟨none, false⟩
    [] ⟨0, [], [], 0⟩ "boom" rfl rfl

/-- **C3, counterexample.** A tool that succeeds returning `None`: the first
call stores `None` under the cache key, but the hit test is
`if cached is not None`, so the second identical call misses and invokes
the underlying tool again — two invocations, not one. -/
theorem wrapper_null_result_not_cached_counterexample :
    ((ToolCallWrapper.execute ⟨"t", "d", false, fun _ => .ok .null⟩ ⟨none, true⟩ true []
        (ToolCallWrapper.execute ⟨"t", "d", false, fun _ => .ok .null⟩ ⟨none, true⟩ true []
          ⟨0, [], [], 0⟩).2).2).toolCalls = 2
    ∧ (2 : Nat) ≠ 1 := by
  have h1 := wrapper_execute_miss_ok ⟨"t", "d", false, fun _ => .ok .null⟩ ⟨none, true⟩
    [] ⟨0, [], [], 0⟩ .null rfl rfl
  have hmiss2 : wrapperCacheHit ⟨"t", "d", false, fun _ => .ok .null⟩ ⟨none, true⟩
      (injectSessionId ⟨"t", "d", false, fun _ => .ok .null⟩ ⟨none, true⟩ [])
      (ToolCallWrapper.execute ⟨"t", "d", false, fun _ => .ok .null⟩ ⟨none, true⟩ true []
        ⟨0, [], [], 0⟩).2 = none := by
    rw [h1]
    simp [wrapperCacheHit, pyGet_insert, PyVal.isNull]
  have h2 := wrapper_execute_miss_ok ⟨"t", "d", false, fun _ => .ok .null⟩ ⟨none, true⟩
    [] (ToolCallWrapper.execute ⟨"t", "d", false, fun _ => .ok .null⟩ ⟨none, true⟩ true []
      ⟨0, [], [], 0⟩).2 .null hmiss2 rfl
  rw [h2, h1]
  exact ⟨rfl, by decide⟩

/-- **C3, amended.** For every tool and input on which it succeeds with a
non-`None` value, in a context with a tool cache and a cache scope fresh
for this key: the first call emits `(input-available, output-available)`
with one `toolCallId`, invokes the tool once and stores the result under
the cache key; an identical second call is served from the cache, invoking
the tool no further time, yet emits the same two-event lifecycle with the
cached value as the `output-available` payload, the traces differing only
in the freshly drawn ids.  (A `None` result is stored but never read back,
see the counterexample.) -/
theorem wrapper_cache_single_invocation_amended
    (tool : ToolModel) (ctx : WrapperContext) (kwargs : List (String × PyVal))
    (st : WrapperState) (v : PyVal)
    (hcache : ctx.hasToolCache = true)
    (hfresh : pyGet st.cache (wrapperCacheKey tool (injectSessionId tool ctx kwargs)) = none)
    (hexec : tool.exec (injectSessionId tool ctx kwargs) = .ok v)
    (hnn : v.isNull = false) :
    (ToolCallWrapper.execute tool ctx true kwargs st).1 = v
    ∧ (ToolCallWrapper.execute tool ctx true kwargs
        (ToolCallWrapper.execute tool ctx true kwargs st).2).1 = v
    ∧ (ToolCallWrapper.execute tool ctx true kwargs st).2.toolCalls = st.toolCalls + 1
    ∧ (ToolCallWrapper.execute tool ctx true kwargs
        (ToolCallWrapper.execute tool ctx true kwargs st).2).2.toolCalls
        = st.toolCalls + 1
    ∧ pyGet (ToolCallWrapper.execute tool ctx true kwargs st).2.cache
        (wrapperCacheKey tool (injectSessionId tool ctx kwargs)) = some v
    ∧ (ToolCallWrapper.execute tool ctx true kwargs st).2.events
        = st.events ++
          [⟨uuidStr (st.uuidSeed + 1), "assistant",
            [.tool ("tool-" ++ tool.name) (uuidStr st.uuidSeed) "input-available"
              (inputPayload tool.description (injectSessionId tool ctx kwargs))
              none none]⟩,
           ⟨uuidStr (st.uuidSeed + 2), "assistant",
            [.tool ("tool-" ++ tool.name) (uuidStr st.uuidSeed) "output-available"
              (inputPayload tool.description (injectSessionId tool ctx kwargs))
              (some v) none]⟩]
    ∧ (ToolCallWrapper.execute tool ctx true kwargs
        (ToolCallWrapper.execute tool ctx true kwargs st).2).2.events
        = (ToolCallWrapper.execute tool ctx true kwargs st).2.events ++
          [⟨uuidStr (st.uuidSeed + 4), "assistant",
            [.tool ("tool-" ++ tool.name) (uuidStr (st.uuidSeed + 3)) "input-available"
              (inputPayload tool.description (injectSessionId tool ctx kwargs))
              none none]⟩,
           ⟨uuidStr (st.uuidSeed + 5), "assistant",
            [.tool ("tool-" ++ tool.name) (uuidStr (st.uuidSeed + 3)) "output-available"
              (inputPayload tool.description (injectSessionId tool ctx kwargs))
              (some v) none]⟩] := by
  have hmiss : wrapperCacheHit tool ctx (injectSessionId tool ctx kwargs) st = none := by
    simp [wrapperCacheHit, hcache, hfresh]
  have h1 := wrapper_execute_miss_ok tool ctx kwargs st v hmiss hexec
  have hhit : wrapperCacheHit tool ctx (injectSessionId tool ctx kwargs)
      (ToolCallWrapper.execute tool ctx true kwargs st).2 = some v := by
    rw [h1]
    simp [wrapperCacheHit, hcache, pyGet_insert, hnn]
  have h2 := wrapper_execute_hit tool ctx kwargs
    (ToolCallWrapper.execute tool ctx true kwargs st).2 v hhit
  rw [h1] at h2
  rw [h1, h2]
  simp [hcache, pyGet_insert,
    show st.uuidSeed + 3 + 1 = st.uuidSeed + 4 from by omega,
    show st.uuidSeed + 3 + 2 = st.uuidSeed + 5 from by omega]

/-- Witness for `wrapper_cache_single_invocation_amended` at a concrete
succeeding tool. -/
theorem wrapper_cache_single_invocation_amended_check :
    (ToolCallWrapper.execute ⟨"t", "d", false, fun _ => .ok (.int 5)⟩ ⟨none, true⟩ true []
        ⟨0, [], [], 0⟩).1 = .int 5
    ∧ (ToolCallWrapper.execute ⟨"t", "d", false, fun _ => .ok (.int 5)⟩ ⟨none, true⟩ true []
        (ToolCallWrapper.execute ⟨"t", "d", false, fun _ => .ok (.int 5)⟩ ⟨none, true⟩ true []
          ⟨0, [], [], 0⟩).2).1 = .int 5
    ∧ (ToolCallWrapper.execute ⟨"t", "d", false, fun _ => .ok (.int 5)⟩ ⟨none, true⟩ true []
        ⟨0, [], [], 0⟩).2.toolCalls = 1
    ∧ (ToolCallWrapper.execute ⟨"t", "d", false, fun _ => .ok (.int 5)⟩ ⟨none, true⟩ true []
        (ToolCallWrapper.execute ⟨"t", "d", false, fun _ => .ok (.int 5)⟩ ⟨none, true⟩ true []
          ⟨0, [], [], 0⟩).2).2.toolCalls = 1
    ∧ pyGet (ToolCallWrapper.execute ⟨"t", "d", false, fun _ => .ok (.int 5)⟩ ⟨none, true⟩
          true [] ⟨0, [], [], 0⟩).2.cache
        (wrapperCacheKey ⟨"t", "d", false, fun _ => .ok (.int 5)⟩
          (injectSessionId ⟨"t", "d", false, fun _ => .ok (.int 5)⟩ ⟨none, true⟩ []))
        = some (.int 5)
    ∧ (ToolCallWrapper.execute ⟨"t", "d", false, fun _ => .ok (.int 5)⟩ ⟨none, true⟩ true []
        ⟨0, [], [], 0⟩).2.events
        = [] ++
          [⟨uuidStr 1, "assistant",
            [.tool "tool-t" (uuidStr 0) "input-available"
              (.dict [("description", .str "d")]) none none]⟩,
           ⟨uuidStr 2, "assistant",
            [.tool "tool-t" (uuidStr 0) "output-available"
              (.dict [("description", .str "d")]) (some (.int 5)) none]⟩]
    ∧ (ToolCallWrapper.execute ⟨"t", "d", false, fun _ => .ok (.int 5)⟩ ⟨none, true⟩ true []
        (ToolCallWrapper.execute ⟨"t", "d", false, fun _ => .ok (.int 5)⟩ ⟨none, true⟩ true []
          ⟨0, [], [], 0⟩).2).2.events
        = (ToolCallWrapper.execute ⟨"t", "d", false, fun _ => .ok (.int 5)⟩ ⟨none, true⟩ true []
            ⟨0, [], [], 0⟩).2.events ++
          [⟨uuidStr 4, "assistant",
            [.tool "tool-t" (uuidStr 3) "input-available"
              (.dict [("description", .str "d")]) none none]⟩,
           ⟨uuidStr 5, "assistant",
            [.tool "tool-t" (uuidStr 3) "output-available"
              (.dict [("description", .str "d")]) (some (.int 5)) none]⟩] :=
  wrapper_cache_single_invocation_amended ⟨"t", "d", false, fun _ => .ok (.int 5)⟩
    ⟨none, true⟩ [] ⟨0, [], [], 0⟩ (.int 5) rfl rfl rfl rfl

/-! ## The Sub-Agent Delegation Tool (claims C6, C7) -/

/-- The unknown-sub-agent error string is never empty. -/
theorem unknown_subagent_ne (name : String) : ("Unknown sub-agent: " ++ name) ≠ "" := by
  intro h
  have h2 := congrArg String.length h
  rw [String.length_append] at h2
  have h3 : ("Unknown sub-agent: " : String).length = 19 := rfl
  have h4 : ("" : String).length = 0 := rfl
  omega

/-- **C6, counterexample.** `execute(name="ghost", message="hi",
description="")` does return a string containing `Unknown sub-agent: ghost`
and emits exactly one `output-error` event without raising — but the
event's input does not carry the *given* description: the empty description
was replaced by the default `"Call sub-agent ghost"` before emission. -/
theorem subagent_default_description_counterexample :
    (SubAgentTool.execute [] true "ghost" "hi" "" ⟨0, []⟩).2.events
      = [⟨uuidStr 1, "assistant",
          [.tool "tool-subAgentCall" (uuidStr 0) "output-error"
            (.dict [("name", .str "ghost"), ("message", .str "hi"),
                    ("description", .str "Call sub-agent ghost")])
            none (some "Unknown sub-agent: ghost")]⟩]
    ∧ (SubAgentTool.execute [] true "ghost" "hi" "" ⟨0, []⟩).1
        = .ok "Unknown sub-agent: ghost"
    ∧ ("Call sub-agent ghost" : String) ≠ "" := by
  refine ⟨rfl, rfl, by decide⟩

/-- **C6, amended.** For every name missing from the registry,
`SubAgentTool.execute` raises no exception, returns the string
`Unknown sub-agent: <name>`, and emits exactly one `output-error` event
whose input carries the given name and message, and the given description
when it is non-empty — an empty description is replaced by the default
`Call sub-agent <name>` first. -/
theorem subagent_unknown_name_amended
    (agents : List (String × (String → PyVal))) (name message description : String)
    (st : SubState) (hmiss : lookupAgent agents name = none) :
    (SubAgentTool.execute agents true name message description st).1
      = .ok ("Unknown sub-agent: " ++ name)
    ∧ (SubAgentTool.execute agents true name message description st).2.events
        = st.events ++
          [⟨uuidStr (st.uuidSeed + 1), "assistant",
            [.tool "tool-subAgentCall" (uuidStr st.uuidSeed) "output-error"
              (.dict [("name", .str name), ("message", .str message),
                      ("description", .str (if description = ""
                        then "Call sub-agent " ++ name else description))])
              none (some ("Unknown sub-agent: " ++ name))]⟩] := by
  have hne := unknown_subagent_ne name
  simp only [SubAgentTool.execute, hmiss, subAgentEmit, subAgentToolPart,
    pyTruthy, if_true]
  simp [bne_iff_ne, hne]

/-- Witness for `subagent_unknown_name_amended` at a concrete registry and
a non-empty description. -/
theorem subagent_unknown_name_amended_check :
    (SubAgentTool.execute [("a", fun _ => PyVal.null)] true "ghost" "hi" "why" ⟨0, []⟩).1
      = .ok ("Unknown sub-agent: " ++ "ghost")
    ∧ (SubAgentTool.execute [("a", fun _ => PyVal.null)] true "ghost" "hi" "why"
        ⟨0, []⟩).2.events
        = [] ++
          [⟨uuidStr 1, "assistant",
            [.tool "tool-subAgentCall" (uuidStr 0) "output-error"
              (.dict [("name", .str "ghost"), ("message", .str "hi"),
                      ("description", .str "why")])
              none (some ("Unknown sub-agent: " ++ "ghost"))]⟩] :=
  subagent_unknown_name_amended [("a", fun _ => PyVal.null)] "ghost" "hi" "why"
    ⟨0, []⟩ rfl

/-- **C7, counterexample.** A nested run returning the plain string
`"  hi  "` (not JSON): it is wrapped as a single `done` text part carrying
`"  hi  "`, so the concatenation of the coerced message's text-part
contents is `"  hi  "` — but `execute` returns `"hi"`: `_extract_text`
strips surrounding whitespace from the joined text before returning it. -/
theorem subagent_text_is_stripped_counterexample :
    (SubAgentTool.execute [("a", fun _ => .str "  hi  ")] true "a" "m" "d" ⟨0, []⟩).1
      = .ok "hi"
    ∧ (coerce_ai_message 2 (.str "  hi  ")).1 = wrapTextMsg (uuidStr 2) "  hi  "
    ∧ ("hi" : String) ≠ "  hi  " := by
  refine ⟨rfl, rfl, by decide⟩

/-- **C7, amended.** For a known sub-agent name, `execute` coerces the
nested result per `_coerce_ai_message`'s three rules (message-shaped values
pass through unchanged; strings JSON-decoding to that shape are parsed and
used; anything else is wrapped as one `done` text part), emits
`input-available` then `output-available` carrying the full coerced
message, and returns the *whitespace-stripped* concatenation of its
text-part contents, falling back to the JSON serialization of the whole
message when that stripped concatenation is empty. -/
theorem subagent_known_name_amended
    (agents : List (String × (String → PyVal))) (name message description : String)
    (st : SubState) (run : String → PyVal) (textv : String)
    (hfound : lookupAgent agents name = some run)
    (hextract : extract_text (coerce_ai_message (st.uuidSeed + 2) (run message)).1
        = .ok textv) :
    (SubAgentTool.execute agents true name message description st).1
      = .ok (if textv ≠ "" then textv
             else json_dumps (coerce_ai_message (st.uuidSeed + 2) (run message)).1)
    ∧ (SubAgentTool.execute agents true name message description st).2.events
        = st.events ++
          [⟨uuidStr (st.uuidSeed + 1), "assistant",
            [.tool "tool-subAgentCall" (uuidStr st.uuidSeed) "input-available"
              (.dict [("name", .str name), ("message", .str message),
                      ("description", .str (if description = ""
                         then "Call sub-agent " ++ name else description))])
              (some .null) none]⟩,
           ⟨uuidStr (coerce_ai_message (st.uuidSeed + 2) (run message)).2, "assistant",
            [.tool "tool-subAgentCall" (uuidStr st.uuidSeed) "output-available"
              (.dict [("name", .str name), ("message", .str message),
                      ("description", .str (if description = ""
                         then "Call sub-agent " ++ name else description))])
              (some (coerce_ai_message (st.uuidSeed + 2) (run message)).1) none]⟩]
    ∧ (∀ (u : Nat) (v : PyVal), looks_like_ai_message v = true
        → (coerce_ai_message u v).1 = v)
    ∧ (∀ (u : Nat) (s : String) (p : PyVal), json_loads s = some p
        → looks_like_ai_message p = true → (coerce_ai_message u (.str s)).1 = p)
    ∧ (∀ (u : Nat) (s : String),
        (∀ p, json_loads s = some p → looks_like_ai_message p = false)
        → (coerce_ai_message u (.str s)).1 = wrapTextMsg (uuidStr u) s)
    ∧ (∀ (u : Nat) (v : PyVal), looks_like_ai_message v = false
        → (∀ s, v ≠ .str s)
        → (coerce_ai_message u v).1 = wrapTextMsg (uuidStr u) (pyStr v)) := by
  have harith : st.uuidSeed + 1 + 1 = st.uuidSeed + 2 := by omega
  refine ⟨?_, ?_, ?_, ?_, ?_, ?_⟩
  · simp only [SubAgentTool.execute, hfound, subAgentEmit, if_true, harith, hextract]
    split <;> simp_all [bne_iff_ne]
  · simp only [SubAgentTool.execute, hfound, subAgentEmit, subAgentToolPart,
      pyTruthy, if_true, harith, hextract]
    split <;> simp_all [List.append_assoc]
  · intro u v h
    simp [coerce_ai_message, h]
  · intro u s p hload hp
    simp [coerce_ai_message, show looks_like_ai_message (.str s) = false from rfl,
      hload, hp]
  · intro u s h
    cases hload : json_loads s with
    | none =>
        simp [coerce_ai_message, show looks_like_ai_message (.str s) = false from rfl,
          hload]
    | some p =>
        simp [coerce_ai_message, show looks_like_ai_message (.str s) = false from rfl,
          hload, h p hload]
  · intro u v hlooks hns
    cases v with
    | str s => exact absurd rfl (hns s)
    | _ => simp [coerce_ai_message, hlooks]

/-- Witness for `subagent_known_name_amended`: a nested run returning the
plain string `"x"`. -/
theorem subagent_known_name_amended_check :
    (SubAgentTool.execute [("a", fun _ => .str "x")] true "a" "m" "d" ⟨0, []⟩).1
      = .ok (if "x" ≠ "" then "x"
             else json_dumps (coerce_ai_message 2 (.str "x")).1)
    ∧ (SubAgentTool.execute [("a", fun _ => .str "x")] true "a" "m" "d" ⟨0, []⟩).2.events
        = [] ++
          [⟨uuidStr 1, "assistant",
            [.tool "tool-subAgentCall" (uuidStr 0) "input-available"
              (.dict [("name", .str "a"), ("message", .str "m"),
                      ("description", .str "d")])
              (some .null) none]⟩,
           ⟨uuidStr 3, "assistant",
            [.tool "tool-subAgentCall" (uuidStr 0) "output-available"
              (.dict [("name", .str "a"), ("message", .str "m"),
                      ("description", .str "d")])
              (some (wrapTextMsg (uuidStr 2) "x")) none]⟩]
    ∧ (∀ (u : Nat) (v : PyVal), looks_like_ai_message v = true
        → (coerce_ai_message u v).1 = v)
    ∧ (∀ (u : Nat) (s : String) (p : PyVal), json_loads s = some p
        → looks_like_ai_message p = true → (coerce_ai_message u (.str s)).1 = p)
    ∧ (∀ (u : Nat) (s : String),
        (∀ p, json_loads s = some p → looks_like_ai_message p = false)
        → (coerce_ai_message u (.str s)).1 = wrapTextMsg (uuidStr u) s)
    ∧ (∀ (u : Nat) (v : PyVal), looks_like_ai_message v = false
        → (∀ s, v ≠ .str s)
        → (coerce_ai_message u v).1 = wrapTextMsg (uuidStr u) (pyStr v)) :=
  subagent_known_name_amended [("a", fun _ => .str "x")] "a" "m" "d" ⟨0, []⟩
    (fun _ => .str "x") "x" rfl rfl

/-! ## Non-streaming `chat_completions` (claim C5) -/

/-- **C5.** The `stream=false` branch cannot return a response once the
bridge yields any event: its loop body evaluates the global name
`_extract_text`, which is bound nowhere in the module (the helper actually
defined there is `_extract_parts`; `_extract_text` exists only as a
`SubAgentTool` method in another module), so the first iteration raises
`NameError` instead of collecting the last text content. -/
theorem chat_completions_nonstream_name_error :
    chat_completions_nonstream [build_text_message "m" "Hi" "streaming"]
      = .error "NameError"
    ∧ openaiModuleNames.contains "_extract_text" = false := by
  exact ⟨rfl, rfl⟩

/-! ## The OpenAI-compatible adapter (claim C4) -/

/-- `countRole` distributes over concatenation. -/
theorem countRole_append (a b : List OaiFrame) :
    countRole (a ++ b) = countRole a + countRole b := by
  induction a with
  | nil => simp [countRole]
  | cons f rest ih =>
      cases f <;> simp [countRole, ih]
      omega

/-- Two role-protocol steps compose. -/
theorem roleStep_comp {st st1 st2 : OaiState} {fs1 fs2 : List OaiFrame}
    (h1 : RoleStep st st1 fs1) (h2 : RoleStep st1 st2 fs2) :
    RoleStep st st2 (fs1 ++ fs2) := by
  obtain ⟨hs1, hc1⟩ := h1
  obtain ⟨hs2, hc2⟩ := h2
  constructor
  · rw [hs2, hs1]
    cases fs1 <;> cases fs2 <;> simp
  · rw [countRole_append, hc1, hc2, hs1]
    by_cases h : st.sent_role <;> cases fs1 <;> cases fs2 <;> simp [h]

/-- The trivial role-protocol step. -/
theorem roleStep_nil (st : OaiState) : RoleStep st st [] := by
  constructor <;> simp [countRole]

/-- The text branch obeys the role protocol. -/
theorem roleStep_processTextEvent (st : OaiState) (t : String) :
    RoleStep st (processTextEvent st t).1 (processTextEvent st t).2 := by
  simp only [processTextEvent, RoleStep]
  by_cases h : st.sent_role <;>
    (repeat' split) <;> simp_all [countRole]

/-- One tool part obeys the role protocol. -/
theorem roleStep_processToolPart (st : OaiState) (p : Part) :
    RoleStep st (processToolPart st p).1 (processToolPart st p).2 := by
  cases p with
  | text t s =>
      simp only [processToolPart]
      exact roleStep_nil st
  | tool ty tcid state input output errorText =>
      simp only [processToolPart, RoleStep]
      by_cases h : st.sent_role <;>
        (repeat' split) <;> simp_all [countRole]

/-- A list of tool parts obeys the role protocol. -/
theorem roleStep_processToolParts (st : OaiState) (ps : List Part) :
    RoleStep st (processToolParts st ps).1 (processToolParts st ps).2 := by
  induction ps generalizing st with
  | nil => exact roleStep_nil st
  | cons p rest ih =>
      simp only [processToolParts]
      exact roleStep_comp (roleStep_processToolPart st p)
        (ih (processToolPart st p).1)

/-- One event obeys the role protocol. -/
theorem roleStep_processEvent (st : OaiState) (e : Msg) :
    RoleStep st (processEvent st e).1 (processEvent st e).2 := by
  simp only [processEvent]
  by_cases h : ((extract_parts e).1.isNone && (extract_parts e).2.isEmpty) = true
  · rw [if_pos h]
    exact roleStep_nil st
  · rw [if_neg h]
    cases htp : (extract_parts e).1 with
    | some t =>
        simp only [htp]
        exact roleStep_comp (roleStep_processTextEvent st t)
          (roleStep_processToolParts (processTextEvent st t).1 (extract_parts e).2)
    | none =>
        simp only [htp]
        exact roleStep_comp (roleStep_nil st)
          (roleStep_processToolParts st (extract_parts e).2)

/-- The whole event loop obeys the role protocol. -/
theorem roleStep_processEvents (st : OaiState) (events : List Msg) :
    RoleStep st (processEvents st events).1 (processEvents st events).2 := by
  induction events generalizing st with
  | nil => exact roleStep_nil st
  | cons e rest ih =>
      simp only [processEvents]
      exact roleStep_comp (roleStep_processEvent st e) (ih (processEvent st e).1)

/-- Frames carrying content or tool calls only come out of the event loop
(never the terminator), and every chunk of the loop is accounted for. -/
theorem carriesPayload_terminator :
    countRole [OaiFrame.chunk ⟨⟨none, none, none⟩, some "stop"⟩,
      OaiFrame.doneSentinel] = 0 := rfl

/-- **C4.** Feeding the adapter `[streaming "Hi", streaming "Hi there",
done "Hi there"]` yields the `role=assistant` marker on the first content
chunk (`"Hi"`), then `" there"`, then the `finish_reason=stop` chunk and
the `[DONE]` sentinel, with no duplicated deltas; in general every content
delta of the text branch is the suffix of the new text beyond `last_text`
when the new text extends it and the entire new text otherwise (never a
negative-length slice), and `role=assistant` is sent at most once — exactly
once as soon as any chunk carries content or tool calls. -/
theorem openai_adapter_delta_and_role :
    (stream_response
        [build_text_message "m" "Hi" "streaming",
         build_text_message "m" "Hi there" "streaming",
         build_text_message "m" "Hi there" "done"]
      = [.chunk ⟨⟨some "assistant", some "Hi", none⟩, none⟩,
         .chunk ⟨⟨none, some " there", none⟩, none⟩,
         .chunk ⟨⟨none, none, none⟩, some "stop"⟩,
         .doneSentinel])
    ∧ (∀ (st : OaiState) (text : String), ∀ f ∈ (processTextEvent st text).2,
        ∀ c, frameContent f = some c →
          c = (if pyStartsWith text st.last_text
               then pySlice text (pyLen st.last_text) else text))
    ∧ (∀ events : List Msg, countRole (stream_response events) ≤ 1)
    ∧ (∀ events : List Msg, (∃ f ∈ stream_response events, carriesPayload f = true)
        → countRole (stream_response events) = 1) := by
  refine ⟨rfl, ?_, ?_, ?_⟩
  · intro st text f hf c hc
    simp only [processTextEvent] at hf
    split at hf <;> rename_i hsw
    · rw [if_pos hsw]
      split at hf
      · simp only [List.mem_singleton] at hf
        subst hf
        simp only [frameContent] at hc
        split at hc
        · exact (Option.some_inj.mp hc).symm
        · cases hc
      · exact absurd hf (List.not_mem_nil f)
    · rw [if_neg hsw]
      split at hf
      · simp only [List.mem_singleton] at hf
        subst hf
        simp only [frameContent] at hc
        split at hc
        · exact (Option.some_inj.mp hc).symm
        · cases hc
      · exact absurd hf (List.not_mem_nil f)
  · intro events
    have h := roleStep_processEvents initOaiState events
    have hsr : initOaiState.sent_role = false := rfl
    unfold stream_response
    rw [countRole_append, carriesPayload_terminator, h.2, hsr]
    simp only [Bool.false_eq_true, if_false]
    split <;> simp
  · intro events hex
    obtain ⟨f, hf, hpay⟩ := hex
    have h := roleStep_processEvents initOaiState events
    have hsr : initOaiState.sent_role = false := rfl
    unfold stream_response at hf ⊢
    rw [countRole_append, carriesPayload_terminator, h.2, hsr]
    have hfs : (processEvents initOaiState events).2.isEmpty = false := by
      rcases List.mem_append.mp hf with hin | hterm
      · cases hl : (processEvents initOaiState events).2 with
        | nil => rw [hl] at hin; cases hin
        | cons a l => simp [hl]
      · simp only [List.mem_cons, List.mem_singleton] at hterm
        rcases hterm with rfl | rfl | hfalse
        · simp [carriesPayload] at hpay
        · simp [carriesPayload] at hpay
        · cases hfalse
    rw [hfs]
    simp

/-! ## The native adapter round-trip (claim C9)

The payload of a native frame is `json.dumps` of the message dict; a
client parses it back with a standard JSON parser.  `json_roundtrip` below
proves `json_loads (json_dumps v) = some v` for every value of the domain,
by inverting the renderer piece by piece: digits, integers, escaped
strings, then the three mutually recursive grammar levels. -/

/-- The digit character of `k < 10` is a digit and carries `k`. -/
theorem decDigit_spec (k : Nat) (h : k < 10) :
    isDigitChar (decDigit k) = true ∧ (decDigit k).toNat - 48 = k := by
  interval_cases k <;> exact ⟨by decide, by decide⟩

/-- A large-enough fuel computes the same digits as `natChars`. -/
theorem natCharsAux_eq_natChars (n : Nat) : ∀ (f : Nat), n < f →
    natCharsAux f n = natChars n := by
  induction n using Nat.strongRecOn with
  | _ n ih =>
      intro f hf
      match f with
      | f' + 1 =>
          by_cases h10 : n < 10
          · simp [natCharsAux, natChars, h10]
          · have hdiv : n / 10 < n := Nat.div_lt_self (by omega) (by omega)
            have h1 : natCharsAux f' (n / 10) = natChars (n / 10) :=
              ih (n / 10) hdiv f' (by omega)
            have h2 : natCharsAux n (n / 10) = natChars (n / 10) :=
              ih (n / 10) hdiv n (by omega)
            simp [natCharsAux, natChars, h10, h1, h2]

/-- The digit recursion, stated without fuel. -/
theorem natChars_unfold (n : Nat) :
    natChars n = if n < 10 then [decDigit n]
                 else natChars (n / 10) ++ [decDigit (n % 10)] := by
  by_cases h10 : n < 10
  · simp [natChars, natCharsAux, h10]
  · have hdiv : n / 10 < n := Nat.div_lt_self (by omega) (by omega)
    simp [natChars, natCharsAux, h10,
      natCharsAux_eq_natChars (n / 10) n (by omega)]

/-- Every rendered digit character is a digit. -/
theorem natChars_digits (n : Nat) : ∀ c ∈ natChars n, isDigitChar c = true := by
  induction n using Nat.strongRecOn with
  | _ n ih =>
      intro c hc
      rw [natChars_unfold] at hc
      by_cases h10 : n < 10
      · rw [if_pos h10] at hc
        simp only [List.mem_singleton] at hc
        subst hc
        exact (decDigit_spec n h10).1
      · rw [if_neg h10] at hc
        rcases List.mem_append.mp hc with h | h
        · exact ih (n / 10) (Nat.div_lt_self (by omega) (by omega)) c h
        · simp only [List.mem_singleton] at h
          subst h
          exact (decDigit_spec (n % 10) (Nat.mod_lt _ (by omega))).1

/-- A digit rendering is never empty. -/
theorem natChars_ne_nil (n : Nat) : natChars n ≠ [] := by
  rw [natChars_unfold]
  split <;> simp

/-- A digit rendering starts with a digit character. -/
theorem natChars_head (n : Nat) :
    ∃ c t, natChars n = c :: t ∧ isDigitChar c = true := by
  match h : natChars n with
  | [] => exact absurd h (natChars_ne_nil n)
  | c :: t =>
      exact ⟨c, t, rfl, natChars_digits n c (h ▸ List.mem_cons_self c t)⟩

/-- `grabDigits` consumes exactly a digit run, stopping at a non-digit. -/
theorem grabDigits_append (ds : List Char) (hds : ∀ c ∈ ds, isDigitChar c = true)
    (rest : List Char) (hrest : noDigitHead rest = true) :
    grabDigits (ds ++ rest) = (ds, rest) := by
  induction ds with
  | nil =>
      cases rest with
      | nil => rfl
      | cons c t =>
          simp only [noDigitHead, Bool.not_eq_true'] at hrest
          simp [grabDigits, hrest]
  | cons c t ih =>
      have hc : isDigitChar c = true := hds c (by simp)
      have ht := ih (fun x hx => hds x (by simp [hx]))
      simp [grabDigits, hc, ht]

/-- Appending one digit shifts the value. -/
theorem digitsNat_append (ds : List Char) (c : Char) :
    digitsNat (ds ++ [c]) = 10 * digitsNat ds + (c.toNat - 48) := by
  simp [digitsNat, List.foldl_append]

/-- The digit run of `n` denotes `n`. -/
theorem digitsNat_natChars (n : Nat) : digitsNat (natChars n) = n := by
  induction n using Nat.strongRecOn with
  | _ n ih =>
      rw [natChars_unfold]
      by_cases h10 : n < 10
      · rw [if_pos h10]
        have : digitsNat [decDigit n] = (decDigit n).toNat - 48 := by
          simp [digitsNat]
        rw [this, (decDigit_spec n h10).2]
      · rw [if_neg h10, digitsNat_append,
          ih (n / 10) (Nat.div_lt_self (by omega) (by omega)),
          (decDigit_spec (n % 10) (Nat.mod_lt _ (by omega))).2]
        omega

/-- `hexNum` inverts `hexDigit` below 16. -/
theorem hexNum_hexDigit (k : Nat) (h : k < 16) : hexNum (hexDigit k) = some k := by
  interval_cases k <;> decide

/-- Scanning one escaped character undoes the escaping. -/
theorem scanStringBody_escape (c : Char) (acc rest : List Char) :
    scanStringBody acc (jsonEscapeChar c ++ rest) = scanStringBody (c :: acc) rest := by
  by_cases h1 : c = '\\'
  · subst h1; rfl
  · by_cases h2 : c = '"'
    · subst h2; rfl
    · by_cases h3 : c = Char.ofNat 8
      · subst h3; rfl
      · by_cases h4 : c = Char.ofNat 12
        · subst h4; rfl
        · by_cases h5 : c = '\n'
          · subst h5; rfl
          · by_cases h6 : c = '\r'
            · subst h6; rfl
            · by_cases h7 : c = '\t'
              · subst h7; rfl
              · simp only [jsonEscapeChar, h1, h2, h3, h4, h5, h6, h7, if_false]
                by_cases h8 : c.toNat < 32
                · rw [if_pos h8]
                  have hdiv : c.toNat / 16 < 16 := by omega
                  have hmod : c.toNat % 16 < 16 := Nat.mod_lt _ (by omega)
                  simp only [List.cons_append, List.nil_append, scanStringBody,
                    hexNum_hexDigit _ hdiv, hexNum_hexDigit _ hmod,
                    show hexNum '0' = some 0 from rfl]
                  have harith : ((0 * 16 + 0) * 16 + c.toNat / 16) * 16 + c.toNat % 16
                      = c.toNat := by omega
                  rw [harith, Char.ofNat_toNat]
                  rfl
                · rw [if_neg h8]
                  simp only [List.cons_append, List.nil_append]
                  rw [scanStringBody.eq_def]
                  have h2' : c ≠ '"' := h2
                  have h1' : c ≠ '\\' := h1
                  simp [h1', h2']

/-- Scanning a rendered string body stops exactly at the closing quote. -/
theorem scanStringBody_render (cs : List Char) : ∀ (acc rest : List Char),
    scanStringBody acc (cs.flatMap jsonEscapeChar ++ '"' :: rest)
      = some (String.mk (acc.reverse ++ cs), rest) := by
  induction cs with
  | nil => intro acc rest; simp [scanStringBody]
  | cons c t ih =>
      intro acc rest
      rw [List.flatMap_cons, List.append_assoc, scanStringBody_escape, ih]
      simp

/-- A digit character is none of the grammar's marker characters. -/
theorem digitChar_ne {c : Char} (h : isDigitChar c = true) :
    c ≠ 'n' ∧ c ≠ 't' ∧ c ≠ 'f' ∧ c ≠ '"' ∧ c ≠ '[' ∧ c ≠ '{' ∧ c ≠ ']'
    ∧ c ≠ '}' ∧ c ≠ ',' ∧ c ≠ '-' := by
  refine ⟨?_, ?_, ?_, ?_, ?_, ?_, ?_, ?_, ?_, ?_⟩ <;>
    (intro h2; subst h2; exact absurd h (by decide))

/-- A digit character is not whitespace. -/
theorem digitChar_not_ws {c : Char} (h : isDigitChar c = true) :
    isWsChar c = false := by
  simp only [isWsChar, Bool.or_eq_false_iff, decide_eq_false_iff_not]
  refine ⟨⟨⟨?_, ?_⟩, ?_⟩, ?_⟩ <;> (intro h2; subst h2; exact absurd h (by decide))

/-- Every rendered value starts with a character that is no whitespace, no
closing bracket and no comma. -/
theorem dumpVal_head (v : PyVal) :
    ∃ c t, dumpVal v = c :: t ∧ isWsChar c = false ∧ c ≠ ']' ∧ c ≠ '}' ∧ c ≠ ',' := by
  cases v with
  | null => exact ⟨'n', _, rfl, by decide, by decide, by decide, by decide⟩
  | bool b =>
      cases b with
      | true => exact ⟨'t', _, rfl, by decide, by decide, by decide, by decide⟩
      | false => exact ⟨'f', _, rfl, by decide, by decide, by decide, by decide⟩
  | int n =>
      by_cases hn : n < 0
      · refine ⟨'-', natChars n.natAbs, ?_, by decide, by decide, by decide, by decide⟩
        simp [dumpVal, intChars, hn]
      · obtain ⟨c, t, hct, hc⟩ := natChars_head n.natAbs
        obtain ⟨_, _, _, _, _, _, h1, h2, h3, _⟩ := digitChar_ne hc
        refine ⟨c, t, ?_, digitChar_not_ws hc, h1, h2, h3⟩
        simp [dumpVal, intChars, hn, hct]
  | str s => exact ⟨'"', _, rfl, by decide, by decide, by decide, by decide⟩
  | list items => exact ⟨'[', _, rfl, by decide, by decide, by decide, by decide⟩
  | dict fields => exact ⟨'{', _, rfl, by decide, by decide, by decide, by decide⟩

/-- `skipSpaces` is the identity on a rendered value (and anything after). -/
theorem skipSpaces_dumpVal (v : PyVal) (x : List Char) :
    skipSpaces (dumpVal v ++ x) = dumpVal v ++ x := by
  obtain ⟨c, t, hct, hws, _, _, _⟩ := dumpVal_head v
  rw [hct, List.cons_append]
  simp [skipSpaces, hws]

/-- A rendered value does not start with a digit-run extender in a position
that matters: its remainder test for numbers. -/
theorem noDigitHead_delim (c : Char) (t : List Char)
    (h : isDigitChar c = false) : noDigitHead (c :: t) = true := by
  simp [noDigitHead, h]

/-- The parser on a digit-headed input reduces to the number branch. -/
theorem parseJsonVal_digit (f : Nat) (c : Char) (t : List Char)
    (hc : isDigitChar c = true) :
    parseJsonVal (f + 1) (c :: t)
      = (match grabDigits (c :: t) with
         | ([], _) => none
         | (ds, rest') => some (.int ((digitsNat ds : Int)), rest')) := by
  obtain ⟨hn, ht, hf, hq, hbk, hbc, _, _, _, hm⟩ := digitChar_ne hc
  have hws := digitChar_not_ws hc
  simp only [parseJsonVal]
  rw [show skipSpaces (c :: t) = c :: t from by simp [skipSpaces, hws]]
  simp [hn, ht, hf, hq, hbk, hbc, hm, hc, grabDigits]

/-- The number codec round-trip: parsing a rendered integer recovers it when
the remainder cannot extend the digit run. -/
theorem parseJsonVal_int (n : Int) (f : Nat) (rest : List Char)
    (hrest : noDigitHead rest = true) :
    parseJsonVal (f + 1) (intChars n ++ rest) = some (.int n, rest) := by
  have hd := natChars_digits n.natAbs
  have hgrab := grabDigits_append _ hd _ hrest
  obtain ⟨c, t, hct, hc⟩ := natChars_head n.natAbs
  have hgrab2 : grabDigits (natChars n.natAbs ++ rest) = (c :: t, rest) := by
    rw [hgrab, hct]
  have hval : digitsNat (c :: t) = n.natAbs := by
    rw [← hct]; exact digitsNat_natChars n.natAbs
  by_cases hn : n < 0
  · have harg : intChars n ++ rest = '-' :: (natChars n.natAbs ++ rest) := by
      simp [intChars, hn]
    have step : parseJsonVal (f + 1) ('-' :: (natChars n.natAbs ++ rest))
        = (match grabDigits (natChars n.natAbs ++ rest) with
           | ([], _) => none
           | (ds, rest') => some (.int (-(digitsNat ds : Int)), rest')) := by
      simp only [parseJsonVal]
      rw [show skipSpaces ('-' :: (natChars n.natAbs ++ rest))
          = '-' :: (natChars n.natAbs ++ rest) from by simp [skipSpaces, isWsChar]]
      rfl
    rw [harg, step, hgrab2]
    show some (PyVal.int (-(digitsNat (c :: t) : Int)), rest)
      = some (PyVal.int n, rest)
    rw [hval]
    have hcast : -((n.natAbs : Int)) = n := by omega
    rw [hcast]
  · have harg : intChars n ++ rest = c :: (t ++ rest) := by
      simp [intChars, hn, hct]
    rw [harg, parseJsonVal_digit f c (t ++ rest) hc]
    rw [show grabDigits (c :: (t ++ rest)) = (c :: t, rest) from by
      rw [← List.cons_append, ← hct]; exact hgrab]
    show some (PyVal.int ((digitsNat (c :: t) : Int)), rest)
      = some (PyVal.int n, rest)
    rw [hval]
    have hcast : ((n.natAbs : Int)) = n := by omega
    rw [hcast]

/-- The string codec round-trip: parsing a rendered string literal recovers
it. -/
theorem parseJsonVal_str (s : String) (f : Nat) (rest : List Char) :
    parseJsonVal (f + 1) (dumpStrL s ++ rest) = some (.str s, rest) := by
  have harg : dumpStrL s ++ rest
      = '"' :: (s.toList.flatMap jsonEscapeChar ++ '"' :: rest) := by
    simp [dumpStrL]
  rw [harg]
  have step : parseJsonVal (f + 1)
      ('"' :: (s.toList.flatMap jsonEscapeChar ++ '"' :: rest))
      = (match scanStringBody [] (s.toList.flatMap jsonEscapeChar ++ '"' :: rest) with
         | some (s', rest') => some (.str s', rest')
         | none => none) := rfl
  rw [step, scanStringBody_render s.toList [] rest]
  rfl

/-- One-step shape of a non-empty rendered element list. -/
theorem dumpItems_cons (v : PyVal) (vs : List PyVal) :
    dumpItems (v :: vs)
      = dumpVal v ++ (match vs with
                      | [] => []
                      | _ :: _ => ',' :: ' ' :: dumpItems vs) := by
  cases vs <;> simp [dumpItems]

/-- One-step shape of a non-empty rendered member list. -/
theorem dumpFields_cons (k : String) (v : PyVal) (kvs : List (String × PyVal)) :
    dumpFields ((k, v) :: kvs)
      = dumpStrL k ++ ':' :: ' ' :: dumpVal v
        ++ (match kvs with
            | [] => []
            | _ :: _ => ',' :: ' ' :: dumpFields kvs) := by
  cases kvs <;> simp [dumpFields]

/-- `skipSpaces` is the identity on a rendered element list (and beyond). -/
theorem skipSpaces_dumpItems (v : PyVal) (vs : List PyVal) (x : List Char) :
    skipSpaces (dumpItems (v :: vs) ++ x) = dumpItems (v :: vs) ++ x := by
  rw [dumpItems_cons, List.append_assoc]
  exact skipSpaces_dumpVal v _

/-- A rendered non-empty element list starts like its first value: with no
whitespace and no closing bracket. -/
theorem dumpItems_head (v : PyVal) (vs : List PyVal) (x : List Char) :
    ∃ c t, dumpItems (v :: vs) ++ x = c :: t ∧ isWsChar c = false
      ∧ c ≠ ']' ∧ c ≠ '}' := by
  obtain ⟨c, t0, hct, hws, h1, h2, _⟩ := dumpVal_head v
  rw [dumpItems_cons, hct]
  exact ⟨c, _, rfl, hws, h1, h2⟩

/-- A rendered non-empty member list starts with the key's opening quote. -/
theorem dumpFields_head (k : String) (v : PyVal) (kvs : List (String × PyVal))
    (x : List Char) :
    ∃ t, dumpFields ((k, v) :: kvs) ++ x = '"' :: t := by
  rw [dumpFields_cons]
  exact ⟨_, rfl⟩

mutual
/-- Parsing a rendered value recovers it, leaving the remainder intact,
whenever the remainder cannot extend a digit run and the fuel exceeds the
rendering's length. -/
theorem rtVal : ∀ (v : PyVal) (f : Nat) (rest : List Char),
    (dumpVal v).length < f → noDigitHead rest = true →
    parseJsonVal f (dumpVal v ++ rest) = some (v, rest)
  | _, 0, _, hf, _ => absurd hf (Nat.not_lt_zero _)
  | .null, f + 1, rest, _, _ => by
      rw [show dumpVal .null = ['n', 'u', 'l', 'l'] from by simp [dumpVal]]
      rfl
  | .bool true, f + 1, rest, _, _ => by
      rw [show dumpVal (.bool true) = ['t', 'r', 'u', 'e'] from by simp [dumpVal]]
      rfl
  | .bool false, f + 1, rest, _, _ => by
      rw [show dumpVal (.bool false) = ['f', 'a', 'l', 's', 'e'] from by
        simp [dumpVal]]
      rfl
  | .int n, f + 1, rest, _, hr => by
      rw [show dumpVal (.int n) = intChars n from by simp [dumpVal]]
      exact parseJsonVal_int n f rest hr
  | .str s, f + 1, rest, _, _ => by
      rw [show dumpVal (.str s) = dumpStrL s from by simp [dumpVal]]
      exact parseJsonVal_str s f rest
  | .list [], f + 1, rest, _, _ => by
      rw [show dumpVal (.list []) = ['[', ']'] from by simp [dumpVal, dumpItems]]
      rfl
  | .list (v :: vs), f + 1, rest, hf, _ => by
      have harg : dumpVal (.list (v :: vs)) ++ rest
          = '[' :: (dumpItems (v :: vs) ++ ']' :: rest) := by
        simp [dumpVal, List.append_assoc]
      have hlen : (dumpItems (v :: vs)).length + 1 < f := by
        have : (dumpVal (.list (v :: vs))).length
            = (dumpItems (v :: vs)).length + 2 := by
          simp [dumpVal]
        omega
      have key := rtItems v vs f rest hlen
      obtain ⟨c, t, hY, hws, hbr, _⟩ := dumpItems_head v vs (']' :: rest)
      have step : parseJsonVal (f + 1) ('[' :: (dumpItems (v :: vs) ++ ']' :: rest))
          = (match skipSpaces (dumpItems (v :: vs) ++ ']' :: rest) with
             | ']' :: rest' => some (.list [], rest')
             | other =>
                 match parseJsonItems f other with
                 | some (vs', rest') => some (.list vs', rest')
                 | none => none) := rfl
      rw [harg, step, skipSpaces_dumpItems, hY]
      split
      · simp_all
      · rw [← hY, key]
  | .dict [], f + 1, rest, _, _ => by
      rw [show dumpVal (.dict []) = ['{', '}'] from by simp [dumpVal, dumpFields]]
      rfl
  | .dict ((k, v) :: kvs), f + 1, rest, hf, _ => by
      have harg : dumpVal (.dict ((k, v) :: kvs)) ++ rest
          = '{' :: (dumpFields ((k, v) :: kvs) ++ '}' :: rest) := by
        simp [dumpVal, List.append_assoc]
      have hlen : (dumpFields ((k, v) :: kvs)).length + 1 < f := by
        have : (dumpVal (.dict ((k, v) :: kvs))).length
            = (dumpFields ((k, v) :: kvs)).length + 2 := by
          simp [dumpVal]
        omega
      have key := rtFields (k, v) kvs f rest hlen
      obtain ⟨t, hY⟩ := dumpFields_head k v kvs ('}' :: rest)
      have step : parseJsonVal (f + 1)
          ('{' :: (dumpFields ((k, v) :: kvs) ++ '}' :: rest))
          = (match skipSpaces (dumpFields ((k, v) :: kvs) ++ '}' :: rest) with
             | '}' :: rest' => some (.dict [], rest')
             | other =>
                 match parseJsonFields f other with
                 | some (fs, rest') => some (.dict fs, rest')
                 | none => none) := rfl
      have hskip : skipSpaces (dumpFields ((k, v) :: kvs) ++ '}' :: rest)
          = dumpFields ((k, v) :: kvs) ++ '}' :: rest := by
        rw [hY]
        simp [skipSpaces, isWsChar]
      rw [harg, step, hskip, hY]
      split
      · simp_all
      · rw [← hY, key]
  termination_by v _ _ _ _ => sizeOf v
/-- Parsing a rendered non-empty element list up to the closing bracket
recovers the elements. -/
theorem rtItems : ∀ (v : PyVal) (vs : List PyVal) (f : Nat) (rest : List Char),
    (dumpItems (v :: vs)).length + 1 < f →
    parseJsonItems f (dumpItems (v :: vs) ++ ']' :: rest) = some (v :: vs, rest)
  | v, [], f + 1, rest, hf => by
      have hfe : (dumpVal v).length < f := by
        have : dumpItems [v] = dumpVal v := by simp [dumpItems]
        rw [this] at hf
        omega
      have hv := rtVal v f (']' :: rest) hfe (noDigitHead_delim ']' rest (by decide))
      rw [show dumpItems [v] ++ ']' :: rest = dumpVal v ++ ']' :: rest from by
        simp [dumpItems]]
      simp only [parseJsonItems, hv]
      rfl
  | v, w :: ws, f + 1, rest, hf => by
      have hflen : (dumpItems (v :: w :: ws)).length
          = (dumpVal v).length + 2 + (dumpItems (w :: ws)).length := by
        simp [dumpItems]
        omega
      have hfe : (dumpVal v).length < f := by omega
      have hfx : (dumpItems (w :: ws)).length + 1 < f := by omega
      have hv := rtVal v f (',' :: ' ' :: (dumpItems (w :: ws) ++ ']' :: rest)) hfe
        (noDigitHead_delim ',' _ (by decide))
      have key := rtItems w ws f rest hfx
      have harg : dumpItems (v :: w :: ws) ++ ']' :: rest
          = dumpVal v ++ (',' :: ' ' :: (dumpItems (w :: ws) ++ ']' :: rest)) := by
        simp [dumpItems, List.append_assoc]
      have hs1 : skipSpaces (',' :: ' ' :: (dumpItems (w :: ws) ++ ']' :: rest))
          = ',' :: ' ' :: (dumpItems (w :: ws) ++ ']' :: rest) := by
        simp [skipSpaces, isWsChar]
      have hs2 : skipSpaces (' ' :: (dumpItems (w :: ws) ++ ']' :: rest))
          = dumpItems (w :: ws) ++ ']' :: rest := by
        rw [show skipSpaces (' ' :: (dumpItems (w :: ws) ++ ']' :: rest))
            = skipSpaces (dumpItems (w :: ws) ++ ']' :: rest) from by
          simp [skipSpaces, isWsChar]]
        exact skipSpaces_dumpItems w ws _
      rw [harg]
      simp only [parseJsonItems, hv, hs1, hs2, key]
  termination_by v vs _ _ _ => sizeOf v + sizeOf vs
/-- Parsing a rendered non-empty member list up to the closing brace
recovers the members. -/
theorem rtFields : ∀ (kv : String × PyVal) (kvs : List (String × PyVal))
      (f : Nat) (rest : List Char),
    (dumpFields (kv :: kvs)).length + 1 < f →
    parseJsonFields f (dumpFields (kv :: kvs) ++ '}' :: rest)
      = some (kv :: kvs, rest)
  | (k, v), [], f + 1, rest, hf => by
      have hlen : (dumpFields [(k, v)]).length
          = (dumpStrL k).length + 2 + (dumpVal v).length := by
        simp [dumpFields]
        omega
      have hfe : (dumpVal v).length < f := by omega
      have hv := rtVal v f ('}' :: rest) hfe (noDigitHead_delim '}' rest (by decide))
      have harg : dumpFields [(k, v)] ++ '}' :: rest
          = '"' :: (k.toList.flatMap jsonEscapeChar
              ++ ('"' :: (':' :: (' ' :: (dumpVal v ++ '}' :: rest))))) := by
        simp [dumpFields, dumpStrL, List.append_assoc]
      have hs0 : skipSpaces ('"' :: (k.toList.flatMap jsonEscapeChar
          ++ ('"' :: (':' :: (' ' :: (dumpVal v ++ '}' :: rest))))))
          = '"' :: (k.toList.flatMap jsonEscapeChar
          ++ ('"' :: (':' :: (' ' :: (dumpVal v ++ '}' :: rest))))) := by
        simp [skipSpaces, isWsChar]
      have hs1 : skipSpaces (':' :: (' ' :: (dumpVal v ++ '}' :: rest)))
          = ':' :: (' ' :: (dumpVal v ++ '}' :: rest)) := by
        simp [skipSpaces, isWsChar]
      have hs2 : skipSpaces (' ' :: (dumpVal v ++ '}' :: rest))
          = dumpVal v ++ '}' :: rest := by
        rw [show skipSpaces (' ' :: (dumpVal v ++ '}' :: rest))
            = skipSpaces (dumpVal v ++ '}' :: rest) from by
          simp [skipSpaces, isWsChar]]
        exact skipSpaces_dumpVal v _
      have hs3 : skipSpaces ('}' :: rest) = '}' :: rest := by
        simp [skipSpaces, isWsChar]
      rw [harg]
      simp only [parseJsonFields, hs0, scanStringBody_render k.toList [],
        hs1, hs2, hv, hs3]
      rfl
  | (k, v), (k', v') :: kvs', f + 1, rest, hf => by
      have hlen : (dumpFields ((k, v) :: (k', v') :: kvs')).length
          = (dumpStrL k).length + 2 + (dumpVal v).length + 2
            + (dumpFields ((k', v') :: kvs')).length := by
        simp [dumpFields]
        omega
      have hfe : (dumpVal v).length < f := by omega
      have hfx : (dumpFields ((k', v') :: kvs')).length + 1 < f := by omega
      have hv := rtVal v f
        (',' :: ' ' :: (dumpFields ((k', v') :: kvs') ++ '}' :: rest)) hfe
        (noDigitHead_delim ',' _ (by decide))
      have key := rtFields (k', v') kvs' f rest hfx
      obtain ⟨tf, hYf⟩ := dumpFields_head k' v' kvs' ('}' :: rest)
      have harg : dumpFields ((k, v) :: (k', v') :: kvs') ++ '}' :: rest
          = '"' :: (k.toList.flatMap jsonEscapeChar
              ++ ('"' :: (':' :: (' ' :: (dumpVal v
                ++ ',' :: ' ' :: (dumpFields ((k', v') :: kvs') ++ '}' :: rest)))))) := by
        simp [dumpFields, dumpStrL, List.append_assoc]
      have hs0 : skipSpaces ('"' :: (k.toList.flatMap jsonEscapeChar
          ++ ('"' :: (':' :: (' ' :: (dumpVal v
            ++ ',' :: ' ' :: (dumpFields ((k', v') :: kvs') ++ '}' :: rest)))))))
          = '"' :: (k.toList.flatMap jsonEscapeChar
          ++ ('"' :: (':' :: (' ' :: (dumpVal v
            ++ ',' :: ' ' :: (dumpFields ((k', v') :: kvs') ++ '}' :: rest)))))) := by
        simp [skipSpaces, isWsChar]
      have hs1 : skipSpaces (':' :: (' ' :: (dumpVal v
          ++ ',' :: ' ' :: (dumpFields ((k', v') :: kvs') ++ '}' :: rest))))
          = ':' :: (' ' :: (dumpVal v
          ++ ',' :: ' ' :: (dumpFields ((k', v') :: kvs') ++ '}' :: rest))) := by
        simp [skipSpaces, isWsChar]
      have hs2 : skipSpaces (' ' :: (dumpVal v
          ++ ',' :: ' ' :: (dumpFields ((k', v') :: kvs') ++ '}' :: rest)))
          = dumpVal v ++ ',' :: ' ' :: (dumpFields ((k', v') :: kvs') ++ '}' :: rest) := by
        rw [show skipSpaces (' ' :: (dumpVal v
            ++ ',' :: ' ' :: (dumpFields ((k', v') :: kvs') ++ '}' :: rest)))
            = skipSpaces (dumpVal v
            ++ ',' :: ' ' :: (dumpFields ((k', v') :: kvs') ++ '}' :: rest)) from by
          simp [skipSpaces, isWsChar]]
        exact skipSpaces_dumpVal v _
      have hs3 : skipSpaces (',' :: ' ' :: (dumpFields ((k', v') :: kvs') ++ '}' :: rest))
          = ',' :: ' ' :: (dumpFields ((k', v') :: kvs') ++ '}' :: rest) := by
        simp [skipSpaces, isWsChar]
      have hs4 : skipSpaces (' ' :: (dumpFields ((k', v') :: kvs') ++ '}' :: rest))
          = dumpFields ((k', v') :: kvs') ++ '}' :: rest := by
        rw [show skipSpaces (' ' :: (dumpFields ((k', v') :: kvs') ++ '}' :: rest))
            = skipSpaces (dumpFields ((k', v') :: kvs') ++ '}' :: rest) from by
          simp [skipSpaces, isWsChar]]
        rw [hYf]
        simp [skipSpaces, isWsChar]
      rw [harg]
      simp only [parseJsonFields, hs0, scanStringBody_render k.toList [],
        hs1, hs2, hv, hs3, hs4, key]
      rfl
  termination_by kv kvs _ _ _ => sizeOf kv + sizeOf kvs
end

/-- `json.loads` inverts `json.dumps` on every value of the domain. -/
theorem json_roundtrip (v : PyVal) : json_loads (json_dumps v) = some v := by
  have htl : (json_dumps v).toList = dumpVal v := rfl
  have h := rtVal v ((dumpVal v).length + 1) [] (by omega) (by decide)
  rw [List.append_nil] at h
  unfold json_loads
  rw [htl, h]
  rfl

/-- Stripping the `data: ` prefix and blank-line terminator of an SSE frame
recovers exactly the JSON payload. -/
theorem sse_payload_frame (m : Msg) :
    sse_payload (event_stream_frame true m) = json_dumps (msgToVal m) := by
  show String.mk
      ((((json_dumps (msgToVal m)).toList ++ ['\n', '\n']).dropLast).dropLast)
      = json_dumps (msgToVal m)
  rw [show (json_dumps (msgToVal m)).toList ++ ['\n', '\n']
      = ((json_dumps (msgToVal m)).toList ++ ['\n']) ++ ['\n'] from by simp]
  rw [List.dropLast_concat, List.dropLast_concat]
  rfl

/-- C9: for every bridge message, the native adapter frame is the plain JSON
serialization of the message dict — in raw mode the frame itself, in SSE mode
the frame minus the `data: ` prefix and blank-line terminator — and parsing
it back yields exactly the message dict, whose `parts` entry is the ordered
list of the message's serialized parts; the adapter applies no transformation
beyond JSON serialization. -/
theorem native_adapter_roundtrip (m : Msg) :
    json_loads (event_stream_frame false m) = some (msgToVal m)
    ∧ json_loads (sse_payload (event_stream_frame true m)) = some (msgToVal m)
    ∧ msgToVal m = .dict [("id", .str m.id), ("role", .str m.role),
        ("parts", .list (m.parts.map partToVal))] := by
  refine ⟨json_roundtrip (msgToVal m), ?_, rfl⟩
  rw [sse_payload_frame]
  exact json_roundtrip (msgToVal m)

end SpoonServer
